import Mathlib

/-!
# Weighted-average kernel of RELION (`src/acc/hip/hip_kernels/wavg.h`)

A shallow embedding of `hip_kernel_wavg` (the compiled branch, lines 163-279) and
theorems about it.

Conventions of the embedding.

* `XFLOAT` is the type of rational numbers: arithmetic is exact.  The kernel divides only
  by `weight_norm` (line 258); the embedding is exact for `weight_norm ≠ 0`.  At
  `weight_norm = 0` the floating-point division of the code yields an infinity or a NaN,
  which the rational numbers do not have (there `x / 0 = 0`), and a statement that
  depends on the value of the quotient assumes `weight_norm ≠ 0`.
* Device pointers are functions from an index to a value; nothing is said about
  reads outside the range the caller allocated.
* Indices (`unsigned`, `unsigned long`) are natural numbers, and the quotients,
  remainders and products of the address computation are taken in the integers: they are
  exact for images of fewer than `2^31` pixels.  The `int` fields of the projector are
  integers in the range of a 32-bit `int`, and the four `int` subtractions of the address
  computation (lines 198, 199, 211, 212), which can leave that range, are reduced modulo
  `2^32` (`wrap32`).
* A launch has `orientation_num` blocks, one per orientation group (`bid = blockIdx.x`),
  of `block_sz` threads each (`tid = threadIdx.x`): the kernel cuts the shared buffer into
  arrays of `block_sz` slots indexed by `tid` and strides the passes by `block_sz`.  The
  atomic adds of all threads are executed in one fixed order: blocks by `bid`, inside a
  block threads by `tid`, inside a thread passes by `pass`.
* The shared buffer of a block is not initialised; its content at kernel entry is a
  parameter of the launch (`buffer bid`).
* The declarations the header includes but the sources do not contain are taken as
  parameters (`AccProjectorKernel`, `translatePixel`, the value of `ceilfracf`) or
  modelled from the specification where it states them (`floorfracf`,
  `hip_atomic_add`).
-/

namespace Wavg

/-- Exact stand-in for the floating-point type `XFLOAT`. -/
abbrev XFLOAT := ℚ

/-- The range of a 32-bit `int`. -/
abbrev InInt (i : Int) : Prop := -2147483648 ≤ i ∧ i ≤ 2147483647

/-- The `int` that 32-bit two's-complement arithmetic holds for the exact result `i`: the
representative of `i` modulo `2^32` in the range of `int`. -/
def wrap32 (i : Int) : Int := (i + 2147483648) % 4294967296 - 2147483648

/-- The projector handed to the kernel (`AccProjectorKernel`, declared in
`src/acc/acc_projector.h`, which is not among the sources): the layout fields the
kernel reads, which are of type `int`, and its three projection entry points, taken as
arbitrary functions that return the pair `(real, imag)`.  `project3Dmodel` is the overload
with three coordinates and nine rotation scalars, `project3Dmodel_xy` the overload with
two coordinates and six rotation scalars. -/
structure AccProjectorKernel where
  imgX : Int
  imgY : Int
  imgZ : Int
  maxR : Int
  imgX_int : InInt imgX
  imgY_int : InInt imgY
  imgZ_int : InInt imgZ
  maxR_int : InInt maxR
  project3Dmodel : Int → Int → Int → XFLOAT → XFLOAT → XFLOAT → XFLOAT → XFLOAT → XFLOAT →
    XFLOAT → XFLOAT → XFLOAT → XFLOAT × XFLOAT
  project3Dmodel_xy : Int → Int → XFLOAT → XFLOAT → XFLOAT → XFLOAT → XFLOAT → XFLOAT →
    XFLOAT × XFLOAT
  project2Dmodel : Int → Int → XFLOAT → XFLOAT → XFLOAT → XFLOAT → XFLOAT × XFLOAT

/-- The two overloads of `translatePixel` (declared in a header that is not among the
sources), taken as arbitrary functions returning the pair `(tReal, tImag)`:
`translatePixel x y tx ty real imag` and `translatePixel_xyz x y z tx ty tz real imag`. -/
structure DeviceUtils where
  translatePixel : Int → Int → XFLOAT → XFLOAT → XFLOAT → XFLOAT → XFLOAT × XFLOAT
  translatePixel_xyz : Int → Int → Int → XFLOAT → XFLOAT → XFLOAT → XFLOAT → XFLOAT →
    XFLOAT × XFLOAT

/-- Modelled from the spec: `floorfracf` (from `hip_device_utils.h`, not among the
sources) is the integer quotient, as section 4.1 writes it (`y = p / imgX`,
`z = p / (imgX*imgY)`). -/
def floorfracf (a b : Int) : Int := a / b

/-- The pixel address computation of `hip_kernel_wavg`, lines 189-215: the coordinates
`(x, y, z)` of the linear index `pixel`.  The subtractions `imgZ - maxR`, `z - imgZ`,
`imgY - maxR` and `y - imgY` are `int` subtractions and are reduced to 32 bits.  When
`DATA3D` is false the variable `z` is neither assigned nor read; `0` stands for it. -/
def resolvePixel (DATA3D : Bool) (projector : AccProjectorKernel) (pixel : Nat) :
    Int × Int × Int :=
  let xyz : Int × Int × Int :=
    if DATA3D then
      let z : Int := floorfracf pixel (projector.imgX * projector.imgY)
      let xy : Int := (pixel : Int) % (projector.imgX * projector.imgY)
      let x : Int := xy % projector.imgX
      let y : Int := floorfracf xy projector.imgX
      if z > projector.maxR then
        if z ≥ wrap32 (projector.imgZ - projector.maxR) then
          (x, y, wrap32 (z - projector.imgZ))
        else (projector.maxR, y, z)
      else (x, y, z)
    else
      ((pixel : Int) % projector.imgX, floorfracf pixel projector.imgX, 0)
  let x := xyz.1
  let y := xyz.2.1
  let z := xyz.2.2
  if y > projector.maxR then
    if y ≥ wrap32 (projector.imgY - projector.maxR) then (x, wrap32 (y - projector.imgY), z)
    else (projector.maxR, y, z)
  else (x, y, z)

/-- The run-time arguments of `hip_kernel_wavg` other than the three output arrays
(lines 15-32).  `orientation_num` is not read by the kernel body; it is the number of
blocks of the launch. -/
structure WavgArgs where
  g_eulers : Nat → XFLOAT
  projector : AccProjectorKernel
  image_size : Nat
  orientation_num : Nat
  g_img_real : Nat → XFLOAT
  g_img_imag : Nat → XFLOAT
  g_trans_x : Nat → XFLOAT
  g_trans_y : Nat → XFLOAT
  g_trans_z : Nat → XFLOAT
  g_weights : Nat → XFLOAT
  g_ctfs : Nat → XFLOAT
  translation_num : Nat
  weight_norm : XFLOAT
  significant_weight : XFLOAT
  part_scale : XFLOAT

/-- The three output arrays `g_wdiff2s_parts`, `g_wdiff2s_AA`, `g_wdiff2s_XA`. -/
structure WavgOut where
  g_wdiff2s_parts : Nat → XFLOAT
  g_wdiff2s_AA : Nat → XFLOAT
  g_wdiff2s_XA : Nat → XFLOAT

/-- The running totals of one thread, i.e. the triple
`(s_wdiff2s_parts[tid], s_sumXA[tid], s_sumA2[tid])`.  The three scratch arrays are
`buffer[0 .. block_sz)`, `buffer[block_sz .. 2*block_sz)` and
`buffer[2*block_sz .. 3*block_sz)`; a thread touches only its own slot `tid < block_sz`
of each, so the slots are kept as a value of the thread. -/
abbrev Totals := XFLOAT × XFLOAT × XFLOAT

/-- Component `s_wdiff2s_parts[tid]` of the running totals. -/
def Totals.s_wdiff2s_parts (s : Totals) : XFLOAT := s.1

/-- Component `s_sumXA[tid]` of the running totals. -/
def Totals.s_sumXA (s : Totals) : XFLOAT := s.2.1

/-- Component `s_sumA2[tid]` of the running totals. -/
def Totals.s_sumA2 (s : Totals) : XFLOAT := s.2.2

/-- Lines 174-178: the rotation scalars of block `bid` as every thread sees them after
the barrier.  Thread `tid` stores `g_eulers[bid*9+tid]` when `tid < 9`, and the block
has the threads `tid < block_sz`; an entry no thread stores keeps what the dynamic
shared buffer held at kernel entry, `buffer (3*block_sz + k)` (`s_eulers` starts at
`&buffer[3*block_sz]`). -/
def s_eulers (block_sz : Nat) (buffer : Nat → XFLOAT) (g_eulers : Nat → XFLOAT) (bid : Nat)
    (k : Nat) : XFLOAT :=
  if k < 9 ∧ k < block_sz then g_eulers (bid * 9 + k) else buffer (3 * block_sz + k)

/-- Lines 217-236: the value `(ref_real, ref_imag)` the projector returns, by the variant
the flags select: `DATA3D` first, then `REF3D`, else the planar reference. -/
def projValue (REF3D DATA3D : Bool) (a : WavgArgs) (e : Nat → XFLOAT) (x y z : Int) :
    XFLOAT × XFLOAT :=
  if DATA3D then
    a.projector.project3Dmodel x y z (e 0) (e 1) (e 2) (e 3) (e 4) (e 5) (e 6) (e 7) (e 8)
  else if REF3D then
    a.projector.project3Dmodel_xy x y (e 0) (e 1) (e 3) (e 4) (e 6) (e 7)
  else
    a.projector.project2Dmodel x y (e 0) (e 1) (e 3) (e 4)

/-- Lines 217-247: the reference value `(ref_real, ref_imag)` of a pixel: the projected
value, multiplied by `g_ctfs[pixel]` when `REFCTF` and by `part_scale` otherwise. -/
def refValue (REFCTF REF3D DATA3D : Bool) (a : WavgArgs) (e : Nat → XFLOAT) (pixel : Nat)
    (x y z : Int) : XFLOAT × XFLOAT :=
  let ref : XFLOAT × XFLOAT := projValue REF3D DATA3D a e x y z
  if REFCTF then (ref.1 * a.g_ctfs pixel, ref.2 * a.g_ctfs pixel)
  else (ref.1 * a.part_scale, ref.2 * a.part_scale)

/-- Lines 260-263: the translated observed value `(trans_real, trans_imag)` of hypothesis
`itrans`. -/
def transValue (DATA3D : Bool) (dev : DeviceUtils) (a : WavgArgs) (x y z : Int)
    (img_real img_imag : XFLOAT) (itrans : Nat) : XFLOAT × XFLOAT :=
  if DATA3D then
    dev.translatePixel_xyz x y z (a.g_trans_x itrans) (a.g_trans_y itrans) (a.g_trans_z itrans)
      img_real img_imag
  else
    dev.translatePixel x y (a.g_trans_x itrans) (a.g_trans_y itrans) img_real img_imag

/-- Lines 254-272: the body of the translation loop for hypothesis `itrans`, acting on the
running totals of the thread.  The quotient `weight / weight_norm` of line 258 is the exact
quotient; it is the value of the code for `weight_norm ≠ 0`. -/
def transStep (DATA3D : Bool) (dev : DeviceUtils) (a : WavgArgs) (bid : Nat) (x y z : Int)
    (ref_real ref_imag img_real img_imag : XFLOAT) (s : Totals) (itrans : Nat) : Totals :=
  let weight : XFLOAT := a.g_weights (bid * a.translation_num + itrans)
  if weight ≥ a.significant_weight then
    let weight : XFLOAT := weight / a.weight_norm
    let trans := transValue DATA3D dev a x y z img_real img_imag itrans
    let trans_real := trans.1
    let trans_imag := trans.2
    let diff_real := ref_real - trans_real
    let diff_imag := ref_imag - trans_imag
    (s.s_wdiff2s_parts + weight * (diff_real * diff_real + diff_imag * diff_imag),
     s.s_sumXA + weight * (ref_real * trans_real + ref_imag * trans_imag),
     s.s_sumA2 + weight * (ref_real * ref_real + ref_imag * ref_imag))
  else s

/-- Lines 252-273: the translation loop `for itrans = 0 .. translation_num - 1`, started
from the running totals `s`. -/
def transLoop (DATA3D : Bool) (dev : DeviceUtils) (a : WavgArgs) (bid : Nat) (x y z : Int)
    (ref_real ref_imag img_real img_imag : XFLOAT) (s : Totals) : Totals :=
  (List.range a.translation_num).foldl
    (transStep DATA3D dev a bid x y z ref_real ref_imag img_real img_imag) s

/-- Lines 181-183 and 189-273: what a thread of block `bid` holds in its three scratch
slots when it reaches the merge for `pixel`: the slots are zeroed, the address is
resolved, the reference and the observed value are loaded and the translation loop
runs. -/
def pixelTotals (REFCTF REF3D DATA3D : Bool) (dev : DeviceUtils) (a : WavgArgs)
    (e : Nat → XFLOAT) (bid pixel : Nat) : Totals :=
  let xyz := resolvePixel DATA3D a.projector pixel
  let x := xyz.1
  let y := xyz.2.1
  let z := xyz.2.2
  let ref := refValue REFCTF REF3D DATA3D a e pixel x y z
  let img_real := a.g_img_real pixel
  let img_imag := a.g_img_imag pixel
  transLoop DATA3D dev a bid x y z ref.1 ref.2 img_real img_imag (0, 0, 0)

/-- Modelled from the spec: `hip_atomic_add` (from `hip_device_utils.h`, not among the
sources) adds `v` to entry `i` of the array and leaves every other entry as it is
(section 4.3: the merge is plain addition into the matching slot). -/
def hip_atomic_add (g : Nat → XFLOAT) (i : Nat) (v : XFLOAT) : Nat → XFLOAT :=
  fun j => if j = i then g j + v else g j

/-- Lines 275-277: the three atomic adds that merge the running totals of a thread into
the output arrays at `pixel`. -/
def mergeTotals (out : WavgOut) (pixel : Nat) (s : Totals) : WavgOut :=
  let xa := hip_atomic_add out.g_wdiff2s_XA pixel s.s_sumXA
  let aa := hip_atomic_add out.g_wdiff2s_AA pixel s.s_sumA2
  let parts := hip_atomic_add out.g_wdiff2s_parts pixel s.s_wdiff2s_parts
  { g_wdiff2s_parts := parts, g_wdiff2s_AA := aa, g_wdiff2s_XA := xa }

/-- Line 185: the pixel a thread works on in a pass, `pixel = pass * block_sz + tid`. -/
def pixelIndex (block_sz pass tid : Nat) : Nat := pass * block_sz + tid

/-- Lines 181-278: one iteration of the pass loop of thread `tid` of block `bid`. -/
def passStep (REFCTF REF3D DATA3D : Bool) (block_sz : Nat) (dev : DeviceUtils) (a : WavgArgs)
    (e : Nat → XFLOAT) (bid tid : Nat) (out : WavgOut) (pass : Nat) : WavgOut :=
  let pixel := pixelIndex block_sz pass tid
  if pixel < a.image_size then
    mergeTotals out pixel (pixelTotals REFCTF REF3D DATA3D dev a e bid pixel)
  else out

/-- Lines 179-279: the pass loop of thread `tid` of block `bid`.  `pass_num` is the value
of `ceilfracf(image_size, block_sz)` (line 170), a function the sources do not
contain. -/
def threadRun (REFCTF REF3D DATA3D : Bool) (block_sz pass_num : Nat) (dev : DeviceUtils)
    (a : WavgArgs) (e : Nat → XFLOAT) (bid : Nat) (out : WavgOut) (tid : Nat) : WavgOut :=
  (List.range pass_num).foldl (passStep REFCTF REF3D DATA3D block_sz dev a e bid tid) out

/-- The block `bid`: its rotation scalars are loaded (lines 176-178), then its `block_sz`
threads run.  `buffer bid` is the content of the block's dynamic shared buffer at kernel
entry. -/
def blockRun (REFCTF REF3D DATA3D : Bool) (block_sz pass_num : Nat) (dev : DeviceUtils)
    (buffer : Nat → Nat → XFLOAT) (a : WavgArgs) (out : WavgOut) (bid : Nat) : WavgOut :=
  (List.range block_sz).foldl
    (threadRun REFCTF REF3D DATA3D block_sz pass_num dev a
      (s_eulers block_sz (buffer bid) a.g_eulers bid) bid) out

/-- The kernel `hip_kernel_wavg<REFCTF, REF3D, DATA3D, block_sz>` launched on
`orientation_num` blocks: the output arrays after the invocation, from the output arrays
`out` before it. -/
def hip_kernel_wavg (REFCTF REF3D DATA3D : Bool) (block_sz pass_num : Nat) (dev : DeviceUtils)
    (buffer : Nat → Nat → XFLOAT) (a : WavgArgs) (out : WavgOut) : WavgOut :=
  (List.range a.orientation_num).foldl
    (blockRun REFCTF REF3D DATA3D block_sz pass_num dev buffer a) out

/-- The entries of the three output arrays at index `p`, in the order of the running
totals: `(g_wdiff2s_parts[p], g_wdiff2s_XA[p], g_wdiff2s_AA[p])`. -/
def WavgOut.read (out : WavgOut) (p : Nat) : Totals :=
  (out.g_wdiff2s_parts p, out.g_wdiff2s_XA p, out.g_wdiff2s_AA p)

/-- What one included hypothesis adds to the running totals (lines 265-271), from the
reference value, the translated observed value and the normalised weight. -/
def hypothesisTerm (ref trans : XFLOAT × XFLOAT) (w : XFLOAT) : Totals :=
  (w * ((ref.1 - trans.1) * (ref.1 - trans.1) + (ref.2 - trans.2) * (ref.2 - trans.2)),
   w * (ref.1 * trans.1 + ref.2 * trans.2),
   w * (ref.1 * ref.1 + ref.2 * ref.2))

/-- The coordinates the kernel resolves for `pixel`, as the triple `(x, y, z)`. -/
def coordAt (DATA3D : Bool) (a : WavgArgs) (pixel : Nat) : Int × Int × Int :=
  resolvePixel DATA3D a.projector pixel

/-- The corrected reference value `(ref_real, ref_imag)` of orientation group `g` at
`pixel`, as the thread that owns the pixel in block `g` computes it. -/
def refAt (REFCTF REF3D DATA3D : Bool) (block_sz : Nat) (buffer : Nat → Nat → XFLOAT)
    (a : WavgArgs) (g pixel : Nat) : XFLOAT × XFLOAT :=
  refValue REFCTF REF3D DATA3D a (s_eulers block_sz (buffer g) a.g_eulers g) pixel
    (coordAt DATA3D a pixel).1 (coordAt DATA3D a pixel).2.1 (coordAt DATA3D a pixel).2.2

/-- The translated observed value `(trans_real, trans_imag)` of hypothesis `t` at
`pixel`. -/
def transAt (DATA3D : Bool) (dev : DeviceUtils) (a : WavgArgs) (pixel t : Nat) :
    XFLOAT × XFLOAT :=
  transValue DATA3D dev a (coordAt DATA3D a pixel).1 (coordAt DATA3D a pixel).2.1
    (coordAt DATA3D a pixel).2.2 (a.g_img_real pixel) (a.g_img_imag pixel) t

/-- The weight `g_weights[g * translation_num + t]` of hypothesis `t` in group `g`. -/
def weightAt (a : WavgArgs) (g t : Nat) : XFLOAT :=
  a.g_weights (g * a.translation_num + t)

/-- The translations of group `g` that pass the test of line 256,
`weight >= significant_weight`. -/
def significant (a : WavgArgs) (g : Nat) : Finset Nat :=
  (Finset.range a.translation_num).filter (fun t => a.significant_weight ≤ weightAt a g t)

/-! ## Concrete inputs used to instantiate the theorems -/

/-- A planar 8 x 8 layout with `maxR = 3` (the layout of the resolver examples of the
specification) and simple projection functions. -/
def demoProjector : AccProjectorKernel where
  imgX := 8
  imgY := 8
  imgZ := 8
  maxR := 3
  imgX_int := by decide
  imgY_int := by decide
  imgZ_int := by decide
  maxR_int := by decide
  project3Dmodel := fun x y z e0 _ _ _ e4 _ _ _ e8 => (e0 * x + e4 * y + e8 * z, 1)
  project3Dmodel_xy := fun x y e0 _ _ e4 e6 _ => (e0 * x + e4 * y, e6)
  project2Dmodel := fun x y e0 e1 e3 e4 => (e0 * x + e1 * y, e3 * x + e4 * y)

/-- Translation functions that add a multiple of the shift to the observed value. -/
def demoDevice : DeviceUtils where
  translatePixel := fun x y tx ty re im => (re + tx * x, im + ty * y)
  translatePixel_xyz := fun x y z tx ty tz re im => (re + tx * x + tz * z, im + ty * y)

/-- One orientation group and two translations with the weights `0.9` and `0.05`,
`weight_norm = 1` and `significant_weight = 0.1` (the scenario of section 8 of the
specification), on a 64-pixel image. -/
def demoArgs : WavgArgs where
  g_eulers := fun _ => 1
  projector := demoProjector
  image_size := 64
  orientation_num := 1
  g_img_real := fun i => i
  g_img_imag := fun _ => 1
  g_trans_x := fun t => t
  g_trans_y := fun t => t + 1
  g_trans_z := fun _ => 0
  g_weights := fun i => if i = 0 then 9 / 10 else 1 / 20
  g_ctfs := fun _ => 2
  translation_num := 2
  weight_norm := 1
  significant_weight := 1 / 10
  part_scale := 1

/-- The demonstration input with the threshold lowered to the weight of its second
hypothesis, `1/20`. -/
def demoBoundaryArgs : WavgArgs := { demoArgs with significant_weight := 1 / 20 }

/-- The demonstration input with the threshold raised to `1`, above both weights. -/
def demoQuietArgs : WavgArgs := { demoArgs with significant_weight := 1 }

/-- The translation indices that remain when the hypotheses selected by `del` are
deleted, in increasing order. -/
def keptTranslations (del : Nat → Bool) (a : WavgArgs) : List Nat :=
  (List.range a.translation_num).filter (fun t => !del t)

/-- The input after deleting the hypotheses selected by `del` from the hypothesis set:
the translation vectors of the remaining hypotheses are moved up, and the column of each
deleted hypothesis is removed from the weight table, whose rows then have one entry per
remaining hypothesis. -/
def deleteTranslations (del : Nat → Bool) (a : WavgArgs) : WavgArgs :=
  { a with
    translation_num := (keptTranslations del a).length
    g_trans_x := fun j => a.g_trans_x ((keptTranslations del a).getD j 0)
    g_trans_y := fun j => a.g_trans_y ((keptTranslations del a).getD j 0)
    g_trans_z := fun j => a.g_trans_z ((keptTranslations del a).getD j 0)
    g_weights := fun i =>
      a.g_weights ((i / (keptTranslations del a).length) * a.translation_num
        + (keptTranslations del a).getD (i % (keptTranslations del a).length) 0) }

/-- Output arrays that hold zero everywhere. -/
def zeroOut : WavgOut where
  g_wdiff2s_parts := fun _ => 0
  g_wdiff2s_AA := fun _ => 0
  g_wdiff2s_XA := fun _ => 0

/-- A shared buffer that holds zero everywhere at kernel entry. -/
def zeroBuffer : Nat → Nat → XFLOAT := fun _ _ => 0

end Wavg

/-!
# Tomogram selection of the tilt-series alignment runner (`src/align_tiltseries_runner.cpp`)

The loop of `AlignTiltseriesRunner::initialise` (lines 113-157) that fills
`idx_tomograms` and `idx_tomograms_all`.  Tomograms are their indices
`0 .. tomogramSet.size() - 1`; `checkResults`, which looks for result files on disk, is a
parameter of the loop; the renaming of the STAR file of each tomogram (lines 118-121) and
the printed note do not enter the selection and are left out.
-/

namespace AlignTiltseriesRunner

/-- The members the loop writes: the two index lists and the local flag `warned`. -/
structure Selection where
  idx_tomograms : List Nat
  idx_tomograms_all : List Nat
  warned : Bool

/-- Lines 123-156: the body of the loop for tomogram `itomo`.  `continue_old` is the
option `--only_do_unfinished` and `do_at_most` the option `--do_at_most` (line 28-29). -/
def selectStep (continue_old : Bool) (do_at_most : Int) (checkResults : Nat → Bool)
    (st : Selection) (itomo : Nat) : Selection :=
  let process_this : Bool := if continue_old && checkResults itomo then false else true
  let ignore_this : Bool := false
  let limited : Bool :=
    decide (do_at_most ≥ 0) && decide ((st.idx_tomograms.length : Int) ≥ do_at_most)
  let ignore_this : Bool := if limited && process_this then true else ignore_this
  let warned : Bool := if limited && process_this && !st.warned then true else st.warned
  let process_this : Bool := if limited && process_this then false else process_this
  { idx_tomograms :=
      if process_this then st.idx_tomograms ++ [itomo] else st.idx_tomograms
    idx_tomograms_all :=
      if !ignore_this then st.idx_tomograms_all ++ [itomo] else st.idx_tomograms_all
    warned := warned }

/-- Lines 113-157 of `AlignTiltseriesRunner::initialise`: both lists are cleared and the
loop runs over `itomo = 0 .. size - 1`, where `size` is `tomogramSet.size()`. -/
def initialise (continue_old : Bool) (do_at_most : Int) (checkResults : Nat → Bool)
    (size : Nat) : Selection :=
  (List.range size).foldl (selectStep continue_old do_at_most checkResults)
    { idx_tomograms := [], idx_tomograms_all := [], warned := false }

end AlignTiltseriesRunner

namespace Wavg

/-! ## The translation loop -/

theorem transStep_eq (DATA3D : Bool) (dev : DeviceUtils) (a : WavgArgs) (bid : Nat)
    (x y z : Int) (rr ri ir ii : XFLOAT) (s : Totals) (t : Nat) :
    transStep DATA3D dev a bid x y z rr ri ir ii s t =
      if a.significant_weight ≤ a.g_weights (bid * a.translation_num + t) then
        s + hypothesisTerm (rr, ri) (transValue DATA3D dev a x y z ir ii t)
          (a.g_weights (bid * a.translation_num + t) / a.weight_norm)
      else s := by
  unfold transStep
  by_cases h : a.significant_weight ≤ a.g_weights (bid * a.translation_num + t)
  · simp [h, hypothesisTerm, Totals.s_wdiff2s_parts, Totals.s_sumXA, Totals.s_sumA2,
      Prod.ext_iff]
  · simp [h]

theorem foldl_transStep (DATA3D : Bool) (dev : DeviceUtils) (a : WavgArgs) (bid : Nat)
    (x y z : Int) (rr ri ir ii : XFLOAT) (s : Totals) (n : Nat) :
    (List.range n).foldl (transStep DATA3D dev a bid x y z rr ri ir ii) s =
      s + ∑ t in (Finset.range n).filter
            (fun t => a.significant_weight ≤ a.g_weights (bid * a.translation_num + t)),
          hypothesisTerm (rr, ri) (transValue DATA3D dev a x y z ir ii t)
            (a.g_weights (bid * a.translation_num + t) / a.weight_norm) := by
  induction n with
  | zero => simp
  | succ n ih =>
    rw [List.range_succ, List.foldl_append, ih, List.foldl_cons, List.foldl_nil,
      transStep_eq, Finset.range_succ, Finset.filter_insert]
    by_cases h : a.significant_weight ≤ a.g_weights (bid * a.translation_num + n)
    · rw [if_pos h, if_pos h, Finset.sum_insert (by simp), add_assoc,
        add_comm (hypothesisTerm _ _ _)]
    · rw [if_neg h, if_neg h]

theorem transLoop_eq (DATA3D : Bool) (dev : DeviceUtils) (a : WavgArgs) (bid : Nat)
    (x y z : Int) (rr ri ir ii : XFLOAT) (s : Totals) :
    transLoop DATA3D dev a bid x y z rr ri ir ii s =
      s + ∑ t in (Finset.range a.translation_num).filter
            (fun t => a.significant_weight ≤ a.g_weights (bid * a.translation_num + t)),
          hypothesisTerm (rr, ri) (transValue DATA3D dev a x y z ir ii t)
            (a.g_weights (bid * a.translation_num + t) / a.weight_norm) :=
  foldl_transStep DATA3D dev a bid x y z rr ri ir ii s a.translation_num

/-! ## The merge and the three loops around it -/

theorem read_mergeTotals (out : WavgOut) (pixel : Nat) (s : Totals) (p : Nat) :
    (mergeTotals out pixel s).read p = if p = pixel then out.read p + s else out.read p := by
  by_cases h : p = pixel
  · simp [h, mergeTotals, WavgOut.read, hip_atomic_add, Totals.s_wdiff2s_parts,
      Totals.s_sumXA, Totals.s_sumA2, Prod.ext_iff]
  · simp [h, mergeTotals, WavgOut.read, hip_atomic_add]

theorem read_passStep (REFCTF REF3D DATA3D : Bool) (block_sz : Nat) (dev : DeviceUtils)
    (a : WavgArgs) (e : Nat → XFLOAT) (bid tid : Nat) (out : WavgOut) (pass p : Nat) :
    (passStep REFCTF REF3D DATA3D block_sz dev a e bid tid out pass).read p =
      out.read p + if p < a.image_size ∧ p = pass * block_sz + tid then
        pixelTotals REFCTF REF3D DATA3D dev a e bid p else 0 := by
  unfold passStep pixelIndex
  by_cases hg : pass * block_sz + tid < a.image_size
  · simp only [hg, if_true, read_mergeTotals]
    by_cases hp : p = pass * block_sz + tid
    · subst hp; simp [hg]
    · simp [hp]
  · simp only [hg, if_false]
    have : ¬ (p < a.image_size ∧ p = pass * block_sz + tid) := by
      rintro ⟨h1, h2⟩; exact hg (h2 ▸ h1)
    simp [this]

theorem read_threadRun_aux (REFCTF REF3D DATA3D : Bool) (block_sz : Nat) (dev : DeviceUtils)
    (a : WavgArgs) (e : Nat → XFLOAT) (bid tid : Nat) (htid : tid < block_sz)
    (out : WavgOut) (p n : Nat) :
    ((List.range n).foldl (passStep REFCTF REF3D DATA3D block_sz dev a e bid tid) out).read p =
      out.read p + if p < a.image_size ∧ p % block_sz = tid ∧ p / block_sz < n then
        pixelTotals REFCTF REF3D DATA3D dev a e bid p else 0 := by
  have hb : 0 < block_sz := Nat.lt_of_le_of_lt (Nat.zero_le _) htid
  induction n with
  | zero => simp
  | succ n ih =>
    rw [List.range_succ, List.foldl_append, List.foldl_cons, List.foldl_nil, read_passStep, ih,
      add_assoc]
    congr 1
    have key : p = n * block_sz + tid ↔ p % block_sz = tid ∧ p / block_sz = n := by
      constructor
      · intro h
        subst h
        constructor
        · rw [Nat.mul_comm, Nat.mul_add_mod, Nat.mod_eq_of_lt htid]
        · rw [Nat.mul_comm, Nat.mul_add_div hb, Nat.div_eq_of_lt htid, Nat.add_zero]
      · rintro ⟨h1, h2⟩
        rw [← h1, ← h2, Nat.mul_comm]
        exact (Nat.div_add_mod p block_sz).symm
    by_cases h1 : p < a.image_size
    · by_cases h2 : p % block_sz = tid
      · by_cases h3 : p / block_sz < n
        · have h4 : p / block_sz ≠ n := Nat.ne_of_lt h3
          have h5 : p / block_sz < n + 1 := Nat.lt_succ_of_lt h3
          simp [h1, h2, h3, h4, h5, key]
        · by_cases h4 : p / block_sz = n
          · simp [h1, h2, h4, key]
          · have h5 : ¬ p / block_sz < n + 1 := by omega
            simp [h1, h2, h3, h4, h5, key]
      · simp [h1, h2, key]
    · simp [h1]

theorem read_threadRun (REFCTF REF3D DATA3D : Bool) (block_sz pass_num : Nat)
    (dev : DeviceUtils) (a : WavgArgs) (e : Nat → XFLOAT) (bid tid : Nat)
    (htid : tid < block_sz) (out : WavgOut) (p : Nat) :
    (threadRun REFCTF REF3D DATA3D block_sz pass_num dev a e bid out tid).read p =
      out.read p + if p < a.image_size ∧ p % block_sz = tid ∧ p / block_sz < pass_num then
        pixelTotals REFCTF REF3D DATA3D dev a e bid p else 0 :=
  read_threadRun_aux REFCTF REF3D DATA3D block_sz dev a e bid tid htid out p pass_num

theorem read_blockRun_aux (REFCTF REF3D DATA3D : Bool) (block_sz pass_num : Nat)
    (dev : DeviceUtils) (a : WavgArgs) (e : Nat → XFLOAT) (bid : Nat) (out : WavgOut)
    (p k : Nat) (hk : k ≤ block_sz) :
    ((List.range k).foldl
        (threadRun REFCTF REF3D DATA3D block_sz pass_num dev a e bid) out).read p =
      out.read p + if p < a.image_size ∧ p % block_sz < k ∧ p / block_sz < pass_num then
        pixelTotals REFCTF REF3D DATA3D dev a e bid p else 0 := by
  induction k with
  | zero => simp
  | succ k ih =>
    rw [List.range_succ, List.foldl_append, List.foldl_cons, List.foldl_nil,
      read_threadRun _ _ _ _ _ _ _ _ _ _ (Nat.lt_of_succ_le hk), ih (Nat.le_of_succ_le hk),
      add_assoc]
    congr 1
    by_cases h1 : p < a.image_size
    · by_cases h3 : p / block_sz < pass_num
      · by_cases h2 : p % block_sz < k
        · have h4 : p % block_sz ≠ k := Nat.ne_of_lt h2
          have h5 : p % block_sz < k + 1 := Nat.lt_succ_of_lt h2
          simp [h1, h2, h3, h4, h5]
        · by_cases h4 : p % block_sz = k
          · simp [h1, h3, h4]
          · have h5 : ¬ p % block_sz < k + 1 := by omega
            simp [h1, h2, h3, h4, h5]
      · simp [h3]
    · simp [h1]

theorem read_blockRun (REFCTF REF3D DATA3D : Bool) (block_sz pass_num : Nat)
    (dev : DeviceUtils) (buffer : Nat → Nat → XFLOAT) (a : WavgArgs) (out : WavgOut)
    (bid p : Nat) :
    (blockRun REFCTF REF3D DATA3D block_sz pass_num dev buffer a out bid).read p =
      out.read p +
        if p < a.image_size ∧ p % block_sz < block_sz ∧ p / block_sz < pass_num then
          pixelTotals REFCTF REF3D DATA3D dev a
            (s_eulers block_sz (buffer bid) a.g_eulers bid) bid p else 0 := by
  unfold blockRun
  rw [read_blockRun_aux _ _ _ _ _ _ _ _ _ _ _ _ (Nat.le_refl _)]

theorem read_kernel_aux (REFCTF REF3D DATA3D : Bool) (block_sz pass_num : Nat)
    (dev : DeviceUtils) (buffer : Nat → Nat → XFLOAT) (a : WavgArgs) (out : WavgOut)
    (p : Nat) (n : Nat) :
    ((List.range n).foldl
        (blockRun REFCTF REF3D DATA3D block_sz pass_num dev buffer a) out).read p =
      out.read p + ∑ g in Finset.range n,
        if p < a.image_size ∧ p % block_sz < block_sz ∧ p / block_sz < pass_num then
          pixelTotals REFCTF REF3D DATA3D dev a
            (s_eulers block_sz (buffer g) a.g_eulers g) g p else 0 := by
  induction n with
  | zero => simp
  | succ n ih =>
    rw [List.range_succ, List.foldl_append, List.foldl_cons, List.foldl_nil,
      read_blockRun, ih, Finset.sum_range_succ, add_assoc]

/-- The effect of a launch on the entries at index `p`: every block adds the running
totals of the thread that owns `p`, when there is one. -/
theorem read_kernel (REFCTF REF3D DATA3D : Bool) (block_sz pass_num : Nat)
    (dev : DeviceUtils) (buffer : Nat → Nat → XFLOAT) (a : WavgArgs) (out : WavgOut)
    (p : Nat) :
    (hip_kernel_wavg REFCTF REF3D DATA3D block_sz pass_num dev buffer a out).read p =
      out.read p + ∑ g in Finset.range a.orientation_num,
        if p < a.image_size ∧ p % block_sz < block_sz ∧ p / block_sz < pass_num then
          pixelTotals REFCTF REF3D DATA3D dev a
            (s_eulers block_sz (buffer g) a.g_eulers g) g p else 0 :=
  read_kernel_aux REFCTF REF3D DATA3D block_sz pass_num dev buffer a out p _

theorem pixelTotals_eq (REFCTF REF3D DATA3D : Bool) (block_sz : Nat) (dev : DeviceUtils)
    (buffer : Nat → Nat → XFLOAT) (a : WavgArgs) (g p : Nat) :
    pixelTotals REFCTF REF3D DATA3D dev a (s_eulers block_sz (buffer g) a.g_eulers g) g p =
      ∑ t in significant a g,
        hypothesisTerm (refAt REFCTF REF3D DATA3D block_sz buffer a g p)
          (transAt DATA3D dev a p t) (weightAt a g t / a.weight_norm) := by
  unfold pixelTotals
  simp only [transLoop_eq]
  rw [show ((0 : XFLOAT), (0 : XFLOAT), (0 : XFLOAT)) = (0 : Totals) from rfl, zero_add]
  rfl

/-- The closed form of the kernel: at every pixel the triple of output entries grows by
the sum over the groups of the sum over their significant hypotheses. -/
theorem read_kernel_sum (REFCTF REF3D DATA3D : Bool) (block_sz pass_num : Nat)
    (dev : DeviceUtils) (buffer : Nat → Nat → XFLOAT) (a : WavgArgs) (out : WavgOut)
    (hb : 0 < block_sz) (hpass : a.image_size ≤ pass_num * block_sz)
    (p : Nat) (hp : p < a.image_size) :
    (hip_kernel_wavg REFCTF REF3D DATA3D block_sz pass_num dev buffer a out).read p =
      out.read p + ∑ g in Finset.range a.orientation_num, ∑ t in significant a g,
        hypothesisTerm (refAt REFCTF REF3D DATA3D block_sz buffer a g p)
          (transAt DATA3D dev a p t) (weightAt a g t / a.weight_norm) := by
  rw [read_kernel]
  have h2 : p / block_sz < pass_num :=
    Nat.div_lt_of_lt_mul (by rw [Nat.mul_comm]; exact Nat.lt_of_lt_of_le hp hpass)
  have h3 : p % block_sz < block_sz := Nat.mod_lt _ hb
  simp only [hp, h2, h3, and_self, if_true, pixelTotals_eq]

/-- The closed form of the kernel, array by array. -/
theorem read_kernel_components (REFCTF REF3D DATA3D : Bool) (block_sz pass_num : Nat)
    (dev : DeviceUtils) (buffer : Nat → Nat → XFLOAT) (a : WavgArgs) (out : WavgOut)
    (hb : 0 < block_sz) (hpass : a.image_size ≤ pass_num * block_sz)
    (p : Nat) (hp : p < a.image_size) :
    ((hip_kernel_wavg REFCTF REF3D DATA3D block_sz pass_num dev buffer a out).g_wdiff2s_parts p
        = out.g_wdiff2s_parts p +
          ∑ g in Finset.range a.orientation_num, ∑ t in significant a g,
            weightAt a g t / a.weight_norm *
              (((refAt REFCTF REF3D DATA3D block_sz buffer a g p).1
                  - (transAt DATA3D dev a p t).1)
                * ((refAt REFCTF REF3D DATA3D block_sz buffer a g p).1
                  - (transAt DATA3D dev a p t).1)
                + ((refAt REFCTF REF3D DATA3D block_sz buffer a g p).2
                  - (transAt DATA3D dev a p t).2)
                * ((refAt REFCTF REF3D DATA3D block_sz buffer a g p).2
                  - (transAt DATA3D dev a p t).2))) ∧
    ((hip_kernel_wavg REFCTF REF3D DATA3D block_sz pass_num dev buffer a out).g_wdiff2s_XA p
        = out.g_wdiff2s_XA p +
          ∑ g in Finset.range a.orientation_num, ∑ t in significant a g,
            weightAt a g t / a.weight_norm *
              ((refAt REFCTF REF3D DATA3D block_sz buffer a g p).1 * (transAt DATA3D dev a p t).1
                + (refAt REFCTF REF3D DATA3D block_sz buffer a g p).2
                  * (transAt DATA3D dev a p t).2)) ∧
    ((hip_kernel_wavg REFCTF REF3D DATA3D block_sz pass_num dev buffer a out).g_wdiff2s_AA p
        = out.g_wdiff2s_AA p +
          ∑ g in Finset.range a.orientation_num, ∑ t in significant a g,
            weightAt a g t / a.weight_norm *
              ((refAt REFCTF REF3D DATA3D block_sz buffer a g p).1
                  * (refAt REFCTF REF3D DATA3D block_sz buffer a g p).1
                + (refAt REFCTF REF3D DATA3D block_sz buffer a g p).2
                  * (refAt REFCTF REF3D DATA3D block_sz buffer a g p).2)) := by
  have h := read_kernel_sum REFCTF REF3D DATA3D block_sz pass_num dev buffer a out hb hpass p hp
  have h1 := congrArg Prod.fst h
  have h2 := congrArg (fun s : Totals => s.2.1) h
  have h3 := congrArg (fun s : Totals => s.2.2) h
  simp only [WavgOut.read, Prod.fst_add, Prod.snd_add, Prod.fst_sum, Prod.snd_sum,
    hypothesisTerm] at h1 h2 h3
  exact ⟨h1, h2, h3⟩

/-! ## The rotation scalars a block loads -/

theorem s_eulers_of_nine_le (block_sz : Nat) (buffer : Nat → XFLOAT) (g_eulers : Nat → XFLOAT)
    (bid : Nat) (h9 : 9 ≤ block_sz) (k : Nat) (hk : k < 9) :
    s_eulers block_sz buffer g_eulers bid k = g_eulers (bid * 9 + k) := by
  have hkb : k < block_sz := Nat.lt_of_lt_of_le hk h9
  simp only [s_eulers, hk, hkb, and_self, if_true]

theorem s_eulers_of_lt (block_sz : Nat) (buffer : Nat → XFLOAT) (g_eulers : Nat → XFLOAT)
    (bid k : Nat) (hk : k < 9) (hkb : k < block_sz) :
    s_eulers block_sz buffer g_eulers bid k = g_eulers (bid * 9 + k) := by
  simp only [s_eulers, hk, hkb, and_self, if_true]

/-- The projection reads the rotation scalars only at positions below 9 (volumetric
data), 8 (3D reference, planar data) or 5 (planar reference). -/
theorem projValue_congr_read (C D : Bool) (a : WavgArgs) (e e' : Nat → XFLOAT)
    (he : ∀ k, k < (if D then 9 else if C then 8 else 5) → e' k = e k) (x y z : Int) :
    projValue C D a e' x y z = projValue C D a e x y z := by
  cases D with
  | true =>
    have h : ∀ k, k < 9 → e' k = e k := fun k hk => he k (by simpa using hk)
    simp only [projValue, if_true, h 0 (by decide), h 1 (by decide), h 2 (by decide),
      h 3 (by decide), h 4 (by decide), h 5 (by decide), h 6 (by decide), h 7 (by decide),
      h 8 (by decide)]
  | false =>
    cases C with
    | true =>
      have h : ∀ k, k < 8 → e' k = e k := fun k hk => he k (by simpa using hk)
      simp only [projValue, Bool.false_eq_true, if_false, if_true, h 0 (by decide),
        h 1 (by decide), h 3 (by decide), h 4 (by decide), h 6 (by decide), h 7 (by decide)]
    | false =>
      have h : ∀ k, k < 5 → e' k = e k := fun k hk => he k (by simpa using hk)
      simp only [projValue, Bool.false_eq_true, if_false, h 0 (by decide), h 1 (by decide),
        h 3 (by decide), h 4 (by decide)]

theorem pixelTotals_congr_read (R C D : Bool) (dev : DeviceUtils) (a : WavgArgs)
    (e e' : Nat → XFLOAT)
    (he : ∀ k, k < (if D then 9 else if C then 8 else 5) → e' k = e k) (g p : Nat) :
    pixelTotals R C D dev a e' g p = pixelTotals R C D dev a e g p := by
  simp only [pixelTotals, refValue, projValue_congr_read C D a e e' he]

/-- In a block with enough threads for the variant, the projection sees the rotation
scalars of the group. -/
theorem pixelTotals_s_eulers (R C D : Bool) (block_sz : Nat) (dev : DeviceUtils)
    (buffer : Nat → XFLOAT) (a : WavgArgs) (g p : Nat)
    (hthreads : (if D then 9 else if C then 8 else 5) ≤ block_sz) :
    pixelTotals R C D dev a (s_eulers block_sz buffer a.g_eulers g) g p =
      pixelTotals R C D dev a (fun k => a.g_eulers (g * 9 + k)) g p := by
  apply pixelTotals_congr_read
  intro k hk
  have h9 : (if D then 9 else if C then 8 else 5) ≤ 9 := by
    cases D <;> cases C <;> decide
  exact s_eulers_of_lt _ _ _ _ _ (Nat.lt_of_lt_of_le hk h9) (Nat.lt_of_lt_of_le hk hthreads)

/-! ## The accumulated sums -/

/-- C1, as stated, fails for a block with too few threads to load the rotation scalars
the projection reads: on the 64-pixel demonstration input (planar reference, planar data,
every rotation scalar equal to 1) launched with `block_sz = 4` and `pass_num = 16` from
zeroed arrays, `g_wdiff2s_AA[8]` is `9/10` after the invocation, while the sum of the
claim, with `ref` the scaled projection of pixel 8 under the rotation scalars
`g_eulers[g*9+0,1,3,4]` of the group, is `9/5`: thread 4 does not exist, so scalar 4 is
never loaded. -/
theorem hip_kernel_wavg_accumulates_narrow_block :
    (8 < demoArgs.image_size ∧ demoArgs.image_size ≤ 16 * 4) ∧
    (hip_kernel_wavg false false false 4 16 demoDevice zeroBuffer demoArgs
        zeroOut).g_wdiff2s_AA 8 = 9 / 10 ∧
    (let a := demoArgs
     let x := (resolvePixel false a.projector 8).1
     let y := (resolvePixel false a.projector 8).2.1
     let proj := fun g : Nat => a.projector.project2Dmodel x y (a.g_eulers (g * 9 + 0))
       (a.g_eulers (g * 9 + 1)) (a.g_eulers (g * 9 + 3)) (a.g_eulers (g * 9 + 4))
     let ref := fun g : Nat => ((proj g).1 * a.part_scale, (proj g).2 * a.part_scale)
     zeroOut.g_wdiff2s_AA 8 + ∑ g in Finset.range a.orientation_num,
       ∑ t in (Finset.range a.translation_num).filter
         (fun t => a.g_weights (g * a.translation_num + t) ≥ a.significant_weight),
         a.g_weights (g * a.translation_num + t) / a.weight_norm *
           ((ref g).1 ^ 2 + (ref g).2 ^ 2)) = 9 / 5 ∧
    (hip_kernel_wavg false false false 4 16 demoDevice zeroBuffer demoArgs
        zeroOut).g_wdiff2s_AA 8 ≠
      (let a := demoArgs
       let x := (resolvePixel false a.projector 8).1
       let y := (resolvePixel false a.projector 8).2.1
       let proj := fun g : Nat => a.projector.project2Dmodel x y (a.g_eulers (g * 9 + 0))
         (a.g_eulers (g * 9 + 1)) (a.g_eulers (g * 9 + 3)) (a.g_eulers (g * 9 + 4))
       let ref := fun g : Nat => ((proj g).1 * a.part_scale, (proj g).2 * a.part_scale)
       zeroOut.g_wdiff2s_AA 8 + ∑ g in Finset.range a.orientation_num,
         ∑ t in (Finset.range a.translation_num).filter
           (fun t => a.g_weights (g * a.translation_num + t) ≥ a.significant_weight),
           a.g_weights (g * a.translation_num + t) / a.weight_norm *
             ((ref g).1 ^ 2 + (ref g).2 ^ 2)) := by
  have h4 : (hip_kernel_wavg false false false 4 16 demoDevice zeroBuffer demoArgs
      zeroOut).g_wdiff2s_AA 8 = 9 / 10 := by
    rw [(read_kernel_components false false false 4 16 demoDevice zeroBuffer demoArgs zeroOut
      (by decide) (by decide) 8 (by decide)).2.2]
    simp [refAt, coordAt, resolvePixel, refValue, projValue, s_eulers, weightAt, significant,
      floorfracf, demoArgs, demoProjector, zeroBuffer, zeroOut, Finset.sum_filter,
      Finset.sum_range_succ]
    norm_num
  have hs : (let a := demoArgs
     let x := (resolvePixel false a.projector 8).1
     let y := (resolvePixel false a.projector 8).2.1
     let proj := fun g : Nat => a.projector.project2Dmodel x y (a.g_eulers (g * 9 + 0))
       (a.g_eulers (g * 9 + 1)) (a.g_eulers (g * 9 + 3)) (a.g_eulers (g * 9 + 4))
     let ref := fun g : Nat => ((proj g).1 * a.part_scale, (proj g).2 * a.part_scale)
     zeroOut.g_wdiff2s_AA 8 + ∑ g in Finset.range a.orientation_num,
       ∑ t in (Finset.range a.translation_num).filter
         (fun t => a.g_weights (g * a.translation_num + t) ≥ a.significant_weight),
         a.g_weights (g * a.translation_num + t) / a.weight_norm *
           ((ref g).1 ^ 2 + (ref g).2 ^ 2)) = 9 / 5 := by
    simp [resolvePixel, floorfracf, demoArgs, demoProjector, zeroOut, Finset.sum_filter,
      Finset.sum_range_succ]
    norm_num
  refine ⟨⟨by decide, by decide⟩, h4, hs, ?_⟩
  rw [h4, hs]
  norm_num

/-- C1, amended. With the projection and translation functions arbitrary and exact
arithmetic, in a launch whose blocks have at least as many threads as the projection of
the variant reads rotation scalars by position (9 for volumetric data, 8 for a 3D
reference with planar data, 5 for a planar reference) and whose `pass_num` passes cover
the image: for every pixel `p < image_size` each of the three output arrays at `p` after
the invocation is its value before plus the sum, over the groups `g < orientation_num`
and the translations `t < translation_num` with `g_weights[g*translation_num+t] >=
significant_weight`, of `weight / weight_norm` times the term of the array: the squared
modulus of `ref - trans` for `g_wdiff2s_parts`, `ref_real*trans_real +
ref_imag*trans_imag` for `g_wdiff2s_XA`, `ref_real^2 + ref_imag^2` for `g_wdiff2s_AA`;
an entry that was zero before holds exactly that sum.  Here `ref` is the projection of
the resolved coordinates of `p` under the rotation scalars `g_eulers[g*9 ..]` of the
group, times `g_ctfs[p]` (REFCTF) or `part_scale`, and `trans` is `translatePixel` applied
to the resolved coordinates, the shift of `t` and the observed value
`(g_img_real[p], g_img_imag[p])`. -/
theorem hip_kernel_wavg_accumulates (REFCTF REF3D DATA3D : Bool) (block_sz pass_num : Nat)
    (dev : DeviceUtils) (buffer : Nat → Nat → XFLOAT) (a : WavgArgs) (out : WavgOut)
    (hthreads : (if DATA3D then 9 else if REF3D then 8 else 5) ≤ block_sz)
    (hpass : a.image_size ≤ pass_num * block_sz)
    (p : Nat) (hp : p < a.image_size) :
    (let after := hip_kernel_wavg REFCTF REF3D DATA3D block_sz pass_num dev buffer a out
     let x := (resolvePixel DATA3D a.projector p).1
     let y := (resolvePixel DATA3D a.projector p).2.1
     let z := (resolvePixel DATA3D a.projector p).2.2
     let e := fun (g k : Nat) => a.g_eulers (g * 9 + k)
     let proj := fun g : Nat =>
       if DATA3D then
         a.projector.project3Dmodel x y z (e g 0) (e g 1) (e g 2) (e g 3) (e g 4) (e g 5)
           (e g 6) (e g 7) (e g 8)
       else if REF3D then
         a.projector.project3Dmodel_xy x y (e g 0) (e g 1) (e g 3) (e g 4) (e g 6) (e g 7)
       else
         a.projector.project2Dmodel x y (e g 0) (e g 1) (e g 3) (e g 4)
     let ref := fun g : Nat =>
       if REFCTF then ((proj g).1 * a.g_ctfs p, (proj g).2 * a.g_ctfs p)
       else ((proj g).1 * a.part_scale, (proj g).2 * a.part_scale)
     let trans := fun t : Nat =>
       if DATA3D then
         dev.translatePixel_xyz x y z (a.g_trans_x t) (a.g_trans_y t) (a.g_trans_z t)
           (a.g_img_real p) (a.g_img_imag p)
       else
         dev.translatePixel x y (a.g_trans_x t) (a.g_trans_y t) (a.g_img_real p)
           (a.g_img_imag p)
     let w := fun g t => a.g_weights (g * a.translation_num + t) / a.weight_norm
     let included := fun g => (Finset.range a.translation_num).filter
       (fun t => a.g_weights (g * a.translation_num + t) ≥ a.significant_weight)
     let sum_parts := ∑ g in Finset.range a.orientation_num, ∑ t in included g,
       w g t * (((ref g).1 - (trans t).1) ^ 2 + ((ref g).2 - (trans t).2) ^ 2)
     let sum_XA := ∑ g in Finset.range a.orientation_num, ∑ t in included g,
       w g t * ((ref g).1 * (trans t).1 + (ref g).2 * (trans t).2)
     let sum_AA := ∑ g in Finset.range a.orientation_num, ∑ t in included g,
       w g t * ((ref g).1 ^ 2 + (ref g).2 ^ 2)
     (after.g_wdiff2s_parts p = out.g_wdiff2s_parts p + sum_parts ∧
       after.g_wdiff2s_XA p = out.g_wdiff2s_XA p + sum_XA ∧
       after.g_wdiff2s_AA p = out.g_wdiff2s_AA p + sum_AA) ∧
     (out.g_wdiff2s_parts p = 0 → after.g_wdiff2s_parts p = sum_parts) ∧
     (out.g_wdiff2s_XA p = 0 → after.g_wdiff2s_XA p = sum_XA) ∧
     (out.g_wdiff2s_AA p = 0 → after.g_wdiff2s_AA p = sum_AA)) := by
  intro after x y z e proj ref trans w included sum_parts sum_XA sum_AA
  have h9 : (if DATA3D then 9 else if REF3D then 8 else 5) ≤ 9 := by
    cases DATA3D <;> cases REF3D <;> decide
  have h5 : 5 ≤ (if DATA3D then 9 else if REF3D then 8 else 5) := by
    cases DATA3D <;> cases REF3D <;> decide
  have hb : 0 < block_sz := Nat.lt_of_lt_of_le (by decide) (Nat.le_trans h5 hthreads)
  have href : ∀ g, refAt REFCTF REF3D DATA3D block_sz buffer a g p = ref g := by
    intro g
    have hproj := projValue_congr_read REF3D DATA3D a (fun k => a.g_eulers (g * 9 + k))
      (s_eulers block_sz (buffer g) a.g_eulers g)
      (fun k hk => s_eulers_of_lt _ _ _ _ _ (Nat.lt_of_lt_of_le hk h9)
        (Nat.lt_of_lt_of_le hk hthreads)) x y z
    simp only [refAt, refValue, coordAt]
    rw [hproj]
    rfl
  have htrans : ∀ t, transAt DATA3D dev a p t = trans t := fun t => rfl
  obtain ⟨h1, h2, h3⟩ :=
    read_kernel_components REFCTF REF3D DATA3D block_sz pass_num dev buffer a out hb hpass p hp
  simp only [href, htrans] at h1 h2 h3
  have e1 : after.g_wdiff2s_parts p = out.g_wdiff2s_parts p + sum_parts := by
    rw [h1]; simp only [sum_parts, pow_two]; rfl
  have e2 : after.g_wdiff2s_XA p = out.g_wdiff2s_XA p + sum_XA := by
    rw [h2]; rfl
  have e3 : after.g_wdiff2s_AA p = out.g_wdiff2s_AA p + sum_AA := by
    rw [h3]; simp only [sum_AA, pow_two]; rfl
  refine ⟨⟨e1, e2, e3⟩, fun hz => ?_, fun hz => ?_, fun hz => ?_⟩
  · rw [e1, hz, zero_add]
  · rw [e2, hz, zero_add]
  · rw [e3, hz, zero_add]

/-- C1, instantiated: pixel 13 of the demonstration input with both translations
significant (shifts `(0, 1)` and `(1, 2)`, resolved coordinates `(5, 1)`), 16 threads per
block and 4 passes, from zeroed arrays; the three entries are `1323/20`, `873/10` and
`342/5`. -/
theorem hip_kernel_wavg_accumulates_witness :
    ((if false then 9 else if false then 8 else 5) ≤ 16 ∧
      demoBoundaryArgs.image_size ≤ 4 * 16 ∧ 13 < demoBoundaryArgs.image_size) ∧
    (hip_kernel_wavg false false false 16 4 demoDevice zeroBuffer demoBoundaryArgs
        zeroOut).g_wdiff2s_parts 13 = 1323 / 20 ∧
    (hip_kernel_wavg false false false 16 4 demoDevice zeroBuffer demoBoundaryArgs
        zeroOut).g_wdiff2s_XA 13 = 873 / 10 ∧
    (hip_kernel_wavg false false false 16 4 demoDevice zeroBuffer demoBoundaryArgs
        zeroOut).g_wdiff2s_AA 13 = 342 / 5 := by
  obtain ⟨_, h1, h2, h3⟩ := hip_kernel_wavg_accumulates false false false 16 4 demoDevice
    zeroBuffer demoBoundaryArgs zeroOut (by decide) (by decide) 13 (by decide)
  refine ⟨⟨by decide, by decide, by decide⟩, ?_, ?_, ?_⟩
  · rw [h1 rfl]
    simp [resolvePixel, floorfracf, demoBoundaryArgs, demoArgs, demoProjector, demoDevice,
      Finset.sum_filter, Finset.sum_range_succ]
    norm_num
  · rw [h2 rfl]
    simp [resolvePixel, floorfracf, demoBoundaryArgs, demoArgs, demoProjector, demoDevice,
      Finset.sum_filter, Finset.sum_range_succ]
    norm_num
  · rw [h3 rfl]
    simp [resolvePixel, floorfracf, demoBoundaryArgs, demoArgs, demoProjector, demoDevice,
      Finset.sum_filter, Finset.sum_range_succ]
    norm_num

/-! ## Runs that agree on every pixel's running totals -/

theorem WavgOut.ext_read (o₁ o₂ : WavgOut) (h : ∀ p, o₁.read p = o₂.read p) : o₁ = o₂ := by
  cases o₁ with
  | mk p1 a1 x1 =>
    cases o₂ with
    | mk p2 a2 x2 =>
      have hp : p1 = p2 := funext fun i => congrArg Prod.fst (h i)
      have hx : x1 = x2 := funext fun i => congrArg (fun s : Totals => s.2.1) (h i)
      have ha : a1 = a2 := funext fun i => congrArg (fun s : Totals => s.2.2) (h i)
      rw [hp, hx, ha]

theorem mergeTotals_zero (out : WavgOut) (pixel : Nat) : mergeTotals out pixel (0, 0, 0) = out := by
  apply WavgOut.ext_read
  intro p
  rw [read_mergeTotals]
  by_cases h : p = pixel
  · rw [if_pos h, show ((0 : XFLOAT), (0 : XFLOAT), (0 : XFLOAT)) = (0 : Totals) from rfl,
      add_zero]
  · rw [if_neg h]

/-- Two launches of the same shape whose threads reach every merge with the same running
totals produce the same output arrays. -/
theorem hip_kernel_wavg_congr (R C D R' C' D' : Bool) (block_sz pass_num : Nat)
    (dev dev' : DeviceUtils) (buffer buffer' : Nat → Nat → XFLOAT) (a a' : WavgArgs)
    (out : WavgOut) (hs : a.image_size = a'.image_size)
    (ho : a.orientation_num = a'.orientation_num)
    (h : ∀ g, g < a.orientation_num → ∀ p, p < a.image_size →
      pixelTotals R C D dev a (s_eulers block_sz (buffer g) a.g_eulers g) g p =
        pixelTotals R' C' D' dev' a' (s_eulers block_sz (buffer' g) a'.g_eulers g) g p) :
    hip_kernel_wavg R C D block_sz pass_num dev buffer a out =
      hip_kernel_wavg R' C' D' block_sz pass_num dev' buffer' a' out := by
  unfold hip_kernel_wavg
  rw [← ho]
  apply List.foldl_ext
  intro o g hg
  unfold blockRun
  apply List.foldl_ext
  intro o tid _
  unfold threadRun
  apply List.foldl_ext
  intro o pass _
  unfold passStep
  rw [← hs]
  by_cases hp : pixelIndex block_sz pass tid < a.image_size
  · simp only [hp, if_true]
    rw [h g (List.mem_range.mp hg) _ hp]
  · simp only [hp, if_false]

/-- A launch whose threads reach every merge with zero running totals leaves the output
arrays as they were. -/
theorem hip_kernel_wavg_of_zero (R C D : Bool) (block_sz pass_num : Nat)
    (dev : DeviceUtils) (buffer : Nat → Nat → XFLOAT) (a : WavgArgs) (out : WavgOut)
    (h : ∀ g, g < a.orientation_num → ∀ p, p < a.image_size →
      pixelTotals R C D dev a (s_eulers block_sz (buffer g) a.g_eulers g) g p = (0, 0, 0)) :
    hip_kernel_wavg R C D block_sz pass_num dev buffer a out = out := by
  unfold hip_kernel_wavg
  generalize hl : List.range a.orientation_num = l
  have hmem : ∀ g ∈ l, g < a.orientation_num := by
    intro g hg; rw [← hl] at hg; exact List.mem_range.mp hg
  clear hl
  induction l generalizing out with
  | nil => rfl
  | cons g l ih =>
    rw [List.foldl_cons]
    have hg : blockRun R C D block_sz pass_num dev buffer a out g = out := by
      unfold blockRun
      generalize List.range block_sz = ts
      induction ts generalizing out with
      | nil => rfl
      | cons tid ts iht =>
        rw [List.foldl_cons]
        have ht : threadRun R C D block_sz pass_num dev a
            (s_eulers block_sz (buffer g) a.g_eulers g) g out tid = out := by
          unfold threadRun
          generalize List.range pass_num = ps
          induction ps generalizing out with
          | nil => rfl
          | cons pass ps ihp =>
            rw [List.foldl_cons]
            have hp : passStep R C D block_sz dev a
                (s_eulers block_sz (buffer g) a.g_eulers g) g tid out pass = out := by
              unfold passStep
              by_cases hp : pixelIndex block_sz pass tid < a.image_size
              · simp only [hp, if_true]
                rw [h g (hmem g (List.mem_cons_self _ _)) _ hp, mergeTotals_zero]
              · simp only [hp, if_false]
            rw [hp]; exact ihp out
        rw [ht]; exact iht out
    rw [hg]
    exact ih out (fun g' hg' => hmem g' (List.mem_cons_of_mem _ hg'))

/-- C2. Boundary inclusion: a hypothesis whose weight is exactly `significant_weight` is
included.  For every group, hypothesis, pixel data and running totals, one pass through
the loop body adds `weight / weight_norm` times the squared-difference, cross and auto
terms to the three totals; and a hypothesis with a larger weight is treated by the same
formula. -/
theorem transStep_boundary (DATA3D : Bool) (dev : DeviceUtils) (a : WavgArgs) (bid : Nat)
    (x y z : Int) (ref_real ref_imag img_real img_imag : XFLOAT) (s : Totals) (itrans : Nat)
    (hw : a.g_weights (bid * a.translation_num + itrans) = a.significant_weight) :
    transStep DATA3D dev a bid x y z ref_real ref_imag img_real img_imag s itrans =
      (s.s_wdiff2s_parts + a.g_weights (bid * a.translation_num + itrans) / a.weight_norm *
          ((ref_real - (transValue DATA3D dev a x y z img_real img_imag itrans).1) ^ 2
            + (ref_imag - (transValue DATA3D dev a x y z img_real img_imag itrans).2) ^ 2),
       s.s_sumXA + a.g_weights (bid * a.translation_num + itrans) / a.weight_norm *
          (ref_real * (transValue DATA3D dev a x y z img_real img_imag itrans).1
            + ref_imag * (transValue DATA3D dev a x y z img_real img_imag itrans).2),
       s.s_sumA2 + a.g_weights (bid * a.translation_num + itrans) / a.weight_norm *
          (ref_real ^ 2 + ref_imag ^ 2)) ∧
    ∀ b : WavgArgs, b.significant_weight < b.g_weights (bid * b.translation_num + itrans) →
      transStep DATA3D dev b bid x y z ref_real ref_imag img_real img_imag s itrans =
        (s.s_wdiff2s_parts + b.g_weights (bid * b.translation_num + itrans) / b.weight_norm *
            ((ref_real - (transValue DATA3D dev b x y z img_real img_imag itrans).1) ^ 2
              + (ref_imag - (transValue DATA3D dev b x y z img_real img_imag itrans).2) ^ 2),
         s.s_sumXA + b.g_weights (bid * b.translation_num + itrans) / b.weight_norm *
            (ref_real * (transValue DATA3D dev b x y z img_real img_imag itrans).1
              + ref_imag * (transValue DATA3D dev b x y z img_real img_imag itrans).2),
         s.s_sumA2 + b.g_weights (bid * b.translation_num + itrans) / b.weight_norm *
            (ref_real ^ 2 + ref_imag ^ 2)) := by
  constructor
  · rw [transStep_eq, if_pos (le_of_eq hw.symm)]
    simp only [hypothesisTerm, Totals.s_wdiff2s_parts, Totals.s_sumXA, Totals.s_sumA2,
      Prod.mk_add_mk, pow_two]
    rfl
  · intro b hb
    rw [transStep_eq, if_pos (le_of_lt hb)]
    simp only [hypothesisTerm, Totals.s_wdiff2s_parts, Totals.s_sumXA, Totals.s_sumA2,
      Prod.mk_add_mk, pow_two]
    rfl

/-- C2, instantiated: in the demonstration input the weight of hypothesis 1 is `1/20`;
with `significant_weight = 1/20` the hypothesis is included and, from totals
`(1, 2, 3)` with reference `(5, 5)` and observed value `(5, 1)` at `(x, y) = (5, 0)`,
the translated value is `(10, 1)` and the totals become `(61/20, 19/4, 11/2)`. -/
theorem transStep_boundary_witness :
    demoBoundaryArgs.g_weights (0 * demoBoundaryArgs.translation_num + 1)
      = demoBoundaryArgs.significant_weight ∧
    transStep false demoDevice demoBoundaryArgs 0 5 0 0 5 5 5 1 (1, 2, 3) 1
      = (61 / 20, 19 / 4, 11 / 2) := by
  have hw : demoBoundaryArgs.g_weights (0 * demoBoundaryArgs.translation_num + 1)
      = demoBoundaryArgs.significant_weight := by
    simp [demoBoundaryArgs, demoArgs]
  refine ⟨hw, ?_⟩
  rw [(transStep_boundary false demoDevice demoBoundaryArgs 0 5 0 0 5 5 5 1 (1, 2, 3) 1 hw).1]
  simp [transValue, demoBoundaryArgs, demoArgs, demoDevice, Totals.s_wdiff2s_parts,
    Totals.s_sumXA, Totals.s_sumA2]
  norm_num

theorem pixelTotals_eq_zero (R C D : Bool) (dev : DeviceUtils) (a : WavgArgs)
    (e : Nat → XFLOAT) (g p : Nat)
    (h : ∀ t, t < a.translation_num → weightAt a g t < a.significant_weight) :
    pixelTotals R C D dev a e g p = (0, 0, 0) := by
  unfold pixelTotals
  simp only [transLoop_eq]
  have hempty : (Finset.range a.translation_num).filter
      (fun t => a.significant_weight ≤ a.g_weights (g * a.translation_num + t)) = ∅ := by
    apply Finset.filter_false_of_mem
    intro t ht
    exact not_le.mpr (h t (Finset.mem_range.mp ht))
  rw [hempty, Finset.sum_empty, add_zero]

/-- C9. No-contribution edge cases: if `translation_num` is zero, or every weight of every
orientation group is strictly below `significant_weight`, then every thread reaches the
merge of every pixel with its three running totals equal to zero, and the three output
arrays after the invocation are the arrays before it. -/
theorem hip_kernel_wavg_no_contribution (REFCTF REF3D DATA3D : Bool)
    (block_sz pass_num : Nat) (dev : DeviceUtils) (buffer : Nat → Nat → XFLOAT)
    (a : WavgArgs) (out : WavgOut)
    (h : a.translation_num = 0 ∨
      ∀ g, g < a.orientation_num → ∀ t, t < a.translation_num →
        a.g_weights (g * a.translation_num + t) < a.significant_weight) :
    (∀ g, g < a.orientation_num → ∀ p,
      pixelTotals REFCTF REF3D DATA3D dev a (s_eulers block_sz (buffer g) a.g_eulers g) g p
        = (0, 0, 0)) ∧
    hip_kernel_wavg REFCTF REF3D DATA3D block_sz pass_num dev buffer a out = out := by
  have hz : ∀ g, g < a.orientation_num → ∀ p,
      pixelTotals REFCTF REF3D DATA3D dev a (s_eulers block_sz (buffer g) a.g_eulers g) g p
        = (0, 0, 0) := by
    intro g hg p
    apply pixelTotals_eq_zero
    intro t ht
    rcases h with h0 | hw
    · rw [h0] at ht; exact absurd ht (Nat.not_lt_zero t)
    · exact hw g hg t ht
  exact ⟨hz, hip_kernel_wavg_of_zero _ _ _ _ _ _ _ _ _ (fun g hg p _ => hz g hg p)⟩

/-- C9, instantiated: with the threshold raised to `1` both weights of the demonstration
input (`9/10`, `1/20`) are below it, and the launch returns the zeroed arrays. -/
theorem hip_kernel_wavg_no_contribution_witness :
    (demoQuietArgs.translation_num = 0 ∨
      ∀ g, g < demoQuietArgs.orientation_num → ∀ t, t < demoQuietArgs.translation_num →
        demoQuietArgs.g_weights (g * demoQuietArgs.translation_num + t)
          < demoQuietArgs.significant_weight) ∧
    hip_kernel_wavg false false false 16 4 demoDevice zeroBuffer demoQuietArgs zeroOut
      = zeroOut := by
  have h : demoQuietArgs.translation_num = 0 ∨
      ∀ g, g < demoQuietArgs.orientation_num → ∀ t, t < demoQuietArgs.translation_num →
        demoQuietArgs.g_weights (g * demoQuietArgs.translation_num + t)
          < demoQuietArgs.significant_weight := by
    right
    intro g _ t _
    simp only [demoQuietArgs, demoArgs]
    split_ifs <;> norm_num
  exact ⟨h, (hip_kernel_wavg_no_contribution false false false 16 4 demoDevice zeroBuffer
    demoQuietArgs zeroOut h).2⟩

/-! ## The radiometric correction -/

/-- C10. One correction mode per invocation.  With `REFCTF` both components of the
projected reference value are multiplied by `g_ctfs[p]`, and two runs that differ only in
`part_scale` give equal outputs; without `REFCTF` both components are multiplied by
`part_scale`, and two runs that differ only in the contents of `g_ctfs` give equal
outputs. -/
theorem hip_kernel_wavg_radiometric (REF3D DATA3D : Bool) (block_sz pass_num : Nat)
    (dev : DeviceUtils) (buffer : Nat → Nat → XFLOAT) (a : WavgArgs) (out : WavgOut) :
    (∀ (e : Nat → XFLOAT) (p : Nat) (x y z : Int),
      refValue true REF3D DATA3D a e p x y z =
        ((projValue REF3D DATA3D a e x y z).1 * a.g_ctfs p,
         (projValue REF3D DATA3D a e x y z).2 * a.g_ctfs p)) ∧
    (∀ scale : XFLOAT,
      hip_kernel_wavg true REF3D DATA3D block_sz pass_num dev buffer
          { a with part_scale := scale } out =
        hip_kernel_wavg true REF3D DATA3D block_sz pass_num dev buffer a out) ∧
    (∀ (e : Nat → XFLOAT) (p : Nat) (x y z : Int),
      refValue false REF3D DATA3D a e p x y z =
        ((projValue REF3D DATA3D a e x y z).1 * a.part_scale,
         (projValue REF3D DATA3D a e x y z).2 * a.part_scale)) ∧
    (∀ ctfs : Nat → XFLOAT,
      hip_kernel_wavg false REF3D DATA3D block_sz pass_num dev buffer
          { a with g_ctfs := ctfs } out =
        hip_kernel_wavg false REF3D DATA3D block_sz pass_num dev buffer a out) := by
  refine ⟨fun e p x y z => ?_, fun scale => ?_, fun e p x y z => ?_, fun ctfs => ?_⟩
  · simp [refValue]
  · refine hip_kernel_wavg_congr true REF3D DATA3D true REF3D DATA3D block_sz pass_num dev dev
      buffer buffer { a with part_scale := scale } a out rfl rfl ?_
    intro g _ p _
    have hstep : transStep DATA3D dev { a with part_scale := scale } = transStep DATA3D dev a := by
      funext bid x y z rr ri ir ii s t
      simp only [transStep, transValue]
    simp only [pixelTotals, refValue, projValue, transLoop, hstep, if_true]
  · simp [refValue]
  · refine hip_kernel_wavg_congr false REF3D DATA3D false REF3D DATA3D block_sz pass_num dev dev
      buffer buffer { a with g_ctfs := ctfs } a out rfl rfl ?_
    intro g _ p _
    have hstep : transStep DATA3D dev { a with g_ctfs := ctfs } = transStep DATA3D dev a := by
      funext bid x y z rr ri ir ii s t
      simp only [transStep, transValue]
    simp only [pixelTotals, refValue, projValue, transLoop, hstep, Bool.false_eq_true,
      if_false]

theorem foldl_getD_range {α β : Type} (f : α → β → α) (d : β) (l : List β) (s : α) :
    (List.range l.length).foldl (fun s j => f s (l.getD j d)) s = l.foldl f s := by
  induction l using List.reverseRecOn generalizing s with
  | nil => rfl
  | append_singleton l x ih =>
    rw [List.length_append, List.length_singleton, List.range_succ, List.foldl_append,
      List.foldl_append, List.foldl_cons, List.foldl_nil, List.foldl_cons, List.foldl_nil]
    have h1 : (List.range l.length).foldl (fun s j => f s ((l ++ [x]).getD j d)) s =
        (List.range l.length).foldl (fun s j => f s (l.getD j d)) s := by
      apply List.foldl_ext
      intro s j hj
      rw [List.getD_append _ _ _ _ (List.mem_range.mp hj)]
    rw [h1, ih, List.getD_append_right _ _ _ _ (Nat.le_refl _), Nat.sub_self]
    rfl

theorem foldl_filter_of_skip {α β : Type} (f : α → β → α) (q : β → Bool) (l : List β)
    (h : ∀ x, x ∈ l → q x = false → ∀ s, f s x = s) (s : α) :
    (l.filter q).foldl f s = l.foldl f s := by
  induction l generalizing s with
  | nil => rfl
  | cons x l ih =>
    have ih' := ih (fun y hy => h y (List.mem_cons_of_mem _ hy))
    cases hq : q x with
    | true => rw [List.filter_cons_of_pos hq, List.foldl_cons, List.foldl_cons, ih']
    | false =>
      rw [List.filter_cons_of_neg (by simp [hq]), List.foldl_cons,
        h x (List.mem_cons_self _ _) hq s, ih']

theorem pixelTotals_deleteTranslations (R C D : Bool) (dev : DeviceUtils) (a : WavgArgs)
    (del : Nat → Bool) (e : Nat → XFLOAT) (g p : Nat)
    (h : ∀ t, t < a.translation_num → del t = true →
      a.g_weights (g * a.translation_num + t) < a.significant_weight) :
    pixelTotals R C D dev (deleteTranslations del a) e g p = pixelTotals R C D dev a e g p := by
  have hstep : ∀ (x y z : Int) (rr ri ir ii : XFLOAT) (s : Totals) (j : Nat),
      j ∈ List.range (keptTranslations del a).length →
      transStep D dev (deleteTranslations del a) g x y z rr ri ir ii s j =
        transStep D dev a g x y z rr ri ir ii s ((keptTranslations del a).getD j 0) := by
    intro x y z rr ri ir ii s j hj
    have hj' : j < (keptTranslations del a).length := List.mem_range.mp hj
    have hpos : 0 < (keptTranslations del a).length := Nat.lt_of_le_of_lt (Nat.zero_le _) hj'
    have hd : (g * (keptTranslations del a).length + j) / (keptTranslations del a).length
        = g := by
      rw [Nat.mul_comm, Nat.mul_add_div hpos, Nat.div_eq_of_lt hj', Nat.add_zero]
    have hm : (g * (keptTranslations del a).length + j) % (keptTranslations del a).length
        = j := by
      rw [Nat.mul_comm, Nat.mul_add_mod, Nat.mod_eq_of_lt hj']
    simp only [transStep, transValue, deleteTranslations, hd, hm]
  have hskip : ∀ (x y z : Int) (rr ri ir ii : XFLOAT) (t : Nat),
      t ∈ List.range a.translation_num → (!del t) = false →
      ∀ s, transStep D dev a g x y z rr ri ir ii s t = s := by
    intro x y z rr ri ir ii t ht hd s
    have hlt := h t (List.mem_range.mp ht) (by simpa using hd)
    rw [transStep_eq, if_neg (not_le.mpr hlt)]
  have hproj : ∀ x y z, projValue C D (deleteTranslations del a) e x y z
      = projValue C D a e x y z := fun _ _ _ => rfl
  simp only [pixelTotals, refValue, hproj, transLoop]
  show List.foldl _ _ (List.range (keptTranslations del a).length) = _
  rw [List.foldl_ext _ _ _ (fun s j hj => hstep _ _ _ _ _ _ _ s j hj),
    foldl_getD_range (fun s t => transStep D dev a g _ _ _ _ _ _ _ s t) 0
      (keptTranslations del a)]
  exact foldl_filter_of_skip _ _ _ (hskip _ _ _ _ _ _ _) _

/-- C3. Significance pruning: a hypothesis whose weight is strictly below
`significant_weight` in every orientation group contributes nothing; for every input and
every set of such hypotheses, the launch on the input from which they are deleted (their
translation vectors and their columns of the weight table) returns the same three output
arrays as the launch on the full input. -/
theorem hip_kernel_wavg_pruning (REFCTF REF3D DATA3D : Bool) (block_sz pass_num : Nat)
    (dev : DeviceUtils) (buffer : Nat → Nat → XFLOAT) (a : WavgArgs) (out : WavgOut)
    (del : Nat → Bool)
    (hdel : ∀ t, t < a.translation_num → del t = true → ∀ g, g < a.orientation_num →
      a.g_weights (g * a.translation_num + t) < a.significant_weight) :
    hip_kernel_wavg REFCTF REF3D DATA3D block_sz pass_num dev buffer
        (deleteTranslations del a) out =
      hip_kernel_wavg REFCTF REF3D DATA3D block_sz pass_num dev buffer a out := by
  refine hip_kernel_wavg_congr REFCTF REF3D DATA3D REFCTF REF3D DATA3D block_sz pass_num dev
    dev buffer buffer (deleteTranslations del a) a out rfl rfl ?_
  intro g hg p _
  exact pixelTotals_deleteTranslations REFCTF REF3D DATA3D dev a del _ g p
    (fun t ht hd => hdel t ht hd g hg)

/-- C3, instantiated on the scenario of the specification: one group, two translations
with the weights `0.9` and `0.05`, `weight_norm = 1`, `significant_weight = 0.1`.
Deleting the second translation leaves the single-translation input with weight `0.9`,
and both launches return the same arrays. -/
theorem hip_kernel_wavg_pruning_witness :
    (∀ t, t < demoArgs.translation_num → (t == 1) = true → ∀ g, g < demoArgs.orientation_num →
      demoArgs.g_weights (g * demoArgs.translation_num + t) < demoArgs.significant_weight) ∧
    ((deleteTranslations (fun t => t == 1) demoArgs).translation_num = 1 ∧
      (deleteTranslations (fun t => t == 1) demoArgs).g_weights 0 = 9 / 10) ∧
    hip_kernel_wavg false false false 16 4 demoDevice zeroBuffer
        (deleteTranslations (fun t => t == 1) demoArgs) zeroOut =
      hip_kernel_wavg false false false 16 4 demoDevice zeroBuffer demoArgs zeroOut := by
  have hdel : ∀ t, t < demoArgs.translation_num → (t == 1) = true →
      ∀ g, g < demoArgs.orientation_num →
      demoArgs.g_weights (g * demoArgs.translation_num + t) < demoArgs.significant_weight := by
    intro t _ ht g hg
    have ht1 : t = 1 := by simpa using ht
    have hg0 : g = 0 := Nat.lt_one_iff.mp hg
    subst ht1 hg0
    simp only [demoArgs]
    norm_num
  refine ⟨hdel, ⟨by decide, ?_⟩, hip_kernel_wavg_pruning false false false 16 4 demoDevice
    zeroBuffer demoArgs zeroOut (fun t => t == 1) hdel⟩
  have hk : keptTranslations (fun t => t == 1) demoArgs = [0] := by decide
  simp only [deleteTranslations, hk]
  simp [demoArgs]

/-! ## Passes -/

theorem pixelIndex_eq_iff (block_sz pass tid p : Nat) (htid : tid < block_sz) :
    pixelIndex block_sz pass tid = p ↔ p / block_sz = pass ∧ p % block_sz = tid := by
  have hb : 0 < block_sz := Nat.lt_of_le_of_lt (Nat.zero_le _) htid
  unfold pixelIndex
  constructor
  · intro h
    subst h
    constructor
    · rw [Nat.mul_comm, Nat.mul_add_div hb, Nat.div_eq_of_lt htid, Nat.add_zero]
    · rw [Nat.mul_comm, Nat.mul_add_mod, Nat.mod_eq_of_lt htid]
  · rintro ⟨h1, h2⟩
    rw [← h1, ← h2, Nat.mul_comm]
    exact Nat.div_add_mod p block_sz

/-- C8, as stated, fails: on the 64-pixel demonstration input the width `block_sz = 4`
with `pass_num = 16` (so `pass_num * block_sz >= image_size`) and the single pass of width
`64` give different values of `g_wdiff2s_AA[8]`, `9/10` and `9/5`: with four threads only
the rotation scalars 0..3 of the group are loaded, and the projection of pixel 8 reads
scalar 4. -/
theorem hip_kernel_wavg_narrow_block_differs :
    (1 ≤ 4 ∧ demoArgs.image_size ≤ 16 * 4 ∧ demoArgs.image_size ≤ 64) ∧
    (hip_kernel_wavg false false false 4 16 demoDevice zeroBuffer demoArgs
        zeroOut).g_wdiff2s_AA 8 = 9 / 10 ∧
    (hip_kernel_wavg false false false 64 1 demoDevice zeroBuffer demoArgs
        zeroOut).g_wdiff2s_AA 8 = 9 / 5 ∧
    (hip_kernel_wavg false false false 4 16 demoDevice zeroBuffer demoArgs
        zeroOut).g_wdiff2s_AA 8 ≠
      (hip_kernel_wavg false false false 64 1 demoDevice zeroBuffer demoArgs
        zeroOut).g_wdiff2s_AA 8 := by
  have h4 : (hip_kernel_wavg false false false 4 16 demoDevice zeroBuffer demoArgs
      zeroOut).g_wdiff2s_AA 8 = 9 / 10 := by
    rw [(read_kernel_components false false false 4 16 demoDevice zeroBuffer demoArgs zeroOut
      (by decide) (by decide) 8 (by decide)).2.2]
    simp [significant, weightAt, refAt, coordAt, resolvePixel, refValue, projValue, s_eulers,
      floorfracf, demoArgs, demoProjector, zeroBuffer, zeroOut, Finset.sum_filter,
      Finset.sum_range_succ]
    norm_num
  have h64 : (hip_kernel_wavg false false false 64 1 demoDevice zeroBuffer demoArgs
      zeroOut).g_wdiff2s_AA 8 = 9 / 5 := by
    rw [(read_kernel_components false false false 64 1 demoDevice zeroBuffer demoArgs zeroOut
      (by decide) (by decide) 8 (by decide)).2.2]
    simp [significant, weightAt, refAt, coordAt, resolvePixel, refValue, projValue, s_eulers,
      floorfracf, demoArgs, demoProjector, zeroBuffer, zeroOut, Finset.sum_filter,
      Finset.sum_range_succ]
    norm_num
  refine ⟨⟨by decide, by decide, by decide⟩, h4, h64, ?_⟩
  rw [h4, h64]
  norm_num

/-- C8, amended.  For every `image_size`, every width `block_sz >= 1` and every `pass_num`
with `pass_num * block_sz >= image_size`: each index `p < image_size` is
`pass * block_sz + tid` for exactly one pair `pass < pass_num`, `tid < block_sz`, and
every block merges the running totals of `p` into the output entries at `p` exactly once;
and the output arrays are those of a single pass of any width that is at least
`image_size`, when both widths are at least the number of rotation scalars the variant
needs loaded: 9 for volumetric data (scalars 0..8), 8 for a 3D reference with planar data
(scalars 0, 1, 3, 4, 6, 7), 5 for a planar reference (scalars 0, 1, 3, 4). -/
theorem hip_kernel_wavg_pass_invariance (REFCTF REF3D DATA3D : Bool)
    (block_sz pass_num : Nat) (dev : DeviceUtils) (buffer : Nat → Nat → XFLOAT)
    (a : WavgArgs) (out : WavgOut)
    (hb : 1 ≤ block_sz) (hpass : a.image_size ≤ pass_num * block_sz) :
    (∀ p, p < a.image_size →
      ∃! pt : Nat × Nat, pt.1 < pass_num ∧ pt.2 < block_sz ∧
        pixelIndex block_sz pt.1 pt.2 = p) ∧
    (∀ (o : WavgOut) (bid p : Nat), p < a.image_size →
      (blockRun REFCTF REF3D DATA3D block_sz pass_num dev buffer a o bid).read p =
        o.read p + pixelTotals REFCTF REF3D DATA3D dev a
          (s_eulers block_sz (buffer bid) a.g_eulers bid) bid p) ∧
    ((if DATA3D then 9 else if REF3D then 8 else 5) ≤ block_sz →
      ∀ (single_sz : Nat) (buffer' : Nat → Nat → XFLOAT),
      a.image_size ≤ single_sz → (if DATA3D then 9 else if REF3D then 8 else 5) ≤ single_sz →
      hip_kernel_wavg REFCTF REF3D DATA3D block_sz pass_num dev buffer a out =
        hip_kernel_wavg REFCTF REF3D DATA3D single_sz 1 dev buffer' a out) := by
  have hdiv : ∀ p, p < a.image_size → p / block_sz < pass_num := fun p hp =>
    Nat.div_lt_of_lt_mul (by rw [Nat.mul_comm]; exact Nat.lt_of_lt_of_le hp hpass)
  have hmod : ∀ p, p % block_sz < block_sz := fun p => Nat.mod_lt _ hb
  refine ⟨?_, ?_, ?_⟩
  · intro p hp
    refine ⟨(p / block_sz, p % block_sz), ⟨hdiv p hp, hmod p, ?_⟩, ?_⟩
    · exact (pixelIndex_eq_iff block_sz _ _ p (hmod p)).mpr ⟨rfl, rfl⟩
    · rintro ⟨pass, tid⟩ ⟨_, htid, hidx⟩
      obtain ⟨h1, h2⟩ := (pixelIndex_eq_iff block_sz pass tid p htid).mp hidx
      rw [← h1, ← h2]
  · intro o bid p hp
    rw [read_blockRun]
    simp only [hp, hmod p, hdiv p hp, and_self, if_true]
  · intro h9 single_sz buffer' hsingle h9'
    apply WavgOut.ext_read
    intro p
    rw [read_kernel, read_kernel]
    congr 1
    apply Finset.sum_congr rfl
    intro g _
    by_cases hp : p < a.image_size
    · have hlt : p < single_sz := Nat.lt_of_lt_of_le hp hsingle
      have h1 : p % single_sz < single_sz := Nat.mod_lt _ (Nat.lt_of_le_of_lt (Nat.zero_le _) hlt)
      have h2 : p / single_sz < 1 := by rw [Nat.div_eq_of_lt hlt]; exact Nat.one_pos
      simp only [hp, hmod p, hdiv p hp, h1, h2, and_self, if_true]
      rw [pixelTotals_s_eulers _ _ _ _ _ _ _ _ _ h9, pixelTotals_s_eulers _ _ _ _ _ _ _ _ _ h9']
    · simp only [hp, false_and, if_false]

/-- C8 amended, instantiated: the demonstration input in the planar-reference variant
with 5 threads per block in 13 passes against a single pass of 64 threads. -/
theorem hip_kernel_wavg_pass_invariance_witness :
    (1 ≤ 5 ∧ demoArgs.image_size ≤ 13 * 5) ∧
    ((if false then 9 else if false then 8 else 5) ≤ 5 ∧ demoArgs.image_size ≤ 64 ∧
      (if false then 9 else if false then 8 else 5) ≤ 64) ∧
    hip_kernel_wavg false false false 5 13 demoDevice zeroBuffer demoArgs zeroOut =
      hip_kernel_wavg false false false 64 1 demoDevice zeroBuffer demoArgs zeroOut :=
  ⟨⟨by decide, by decide⟩, ⟨by decide, by decide, by decide⟩,
    (hip_kernel_wavg_pass_invariance false false false 5 13 demoDevice zeroBuffer demoArgs
      zeroOut (by decide) (by decide)).2.2 (by decide) 64 zeroBuffer (by decide) (by decide)⟩

/-! ## The pixel address resolver -/

/-- C11. The pixel-index guard: for every width and pass count, a work item whose index
`pass * block_sz + tid` is `i >= image_size` is skipped: whatever the contents of the
image, CTF, weight and other argument arrays, its pass leaves the output arrays as they
were; and the entries of the three output arrays at `i` are the same after the invocation
as before. -/
theorem hip_kernel_wavg_index_guard (REFCTF REF3D DATA3D : Bool) (block_sz pass_num : Nat)
    (dev : DeviceUtils) (buffer : Nat → Nat → XFLOAT) (a : WavgArgs) (out : WavgOut)
    (i : Nat) (hi : a.image_size ≤ i) :
    (∀ (a' : WavgArgs) (e : Nat → XFLOAT) (bid tid pass : Nat) (o : WavgOut),
      a'.image_size = a.image_size → pixelIndex block_sz pass tid = i →
      passStep REFCTF REF3D DATA3D block_sz dev a' e bid tid o pass = o) ∧
    (hip_kernel_wavg REFCTF REF3D DATA3D block_sz pass_num dev buffer a out).g_wdiff2s_parts i
      = out.g_wdiff2s_parts i ∧
    (hip_kernel_wavg REFCTF REF3D DATA3D block_sz pass_num dev buffer a out).g_wdiff2s_AA i
      = out.g_wdiff2s_AA i ∧
    (hip_kernel_wavg REFCTF REF3D DATA3D block_sz pass_num dev buffer a out).g_wdiff2s_XA i
      = out.g_wdiff2s_XA i := by
  have hnot : ¬ i < a.image_size := Nat.not_lt.mpr hi
  have hread := read_kernel REFCTF REF3D DATA3D block_sz pass_num dev buffer a out i
  simp only [hnot, false_and, if_false, Finset.sum_const_zero, add_zero] at hread
  refine ⟨?_, congrArg Prod.fst hread, congrArg (fun s : Totals => s.2.2) hread,
    congrArg (fun s : Totals => s.2.1) hread⟩
  intro a' e bid tid pass o hsize hidx
  unfold passStep
  have hguard : ¬ pixelIndex block_sz pass tid < a'.image_size := by
    rw [hidx, hsize]; exact hnot
  simp only [hguard, if_false]

/-- C11, instantiated: on the 64-pixel demonstration input with 16 threads per block and 5
passes, the work item of pass 4 and thread 6 has index 70; its pass changes nothing and
the entries at index 70 stay zero. -/
theorem hip_kernel_wavg_index_guard_witness :
    (demoArgs.image_size ≤ 70 ∧ pixelIndex 16 4 6 = 70) ∧
    passStep false false false 16 demoDevice demoArgs (fun _ => 1) 0 6 zeroOut 4 = zeroOut ∧
    (hip_kernel_wavg false false false 16 5 demoDevice zeroBuffer demoArgs
        zeroOut).g_wdiff2s_parts 70 = 0 ∧
    (hip_kernel_wavg false false false 16 5 demoDevice zeroBuffer demoArgs
        zeroOut).g_wdiff2s_AA 70 = 0 ∧
    (hip_kernel_wavg false false false 16 5 demoDevice zeroBuffer demoArgs
        zeroOut).g_wdiff2s_XA 70 = 0 := by
  obtain ⟨h1, h2, h3, h4⟩ := hip_kernel_wavg_index_guard false false false 16 5 demoDevice
    zeroBuffer demoArgs zeroOut 70 (by decide)
  exact ⟨⟨by decide, by decide⟩, h1 demoArgs (fun _ => 1) 0 6 4 zeroOut rfl (by decide),
    h2, h3, h4⟩

/-! ## Relations between the three statistics -/

/-- C17. The expansion of the squared residual: for every pixel `p < image_size`, the
amount added to `g_wdiff2s_parts[p]` is the amount added to `g_wdiff2s_AA[p]`, minus twice
the amount added to `g_wdiff2s_XA[p]`, plus the sum over the significant hypotheses of all
groups of `weight / weight_norm` times `trans_real^2 + trans_imag^2`. -/
theorem hip_kernel_wavg_residual_expansion (REFCTF REF3D DATA3D : Bool)
    (block_sz pass_num : Nat) (dev : DeviceUtils) (buffer : Nat → Nat → XFLOAT)
    (a : WavgArgs) (out : WavgOut)
    (hb : 0 < block_sz) (hpass : a.image_size ≤ pass_num * block_sz)
    (p : Nat) (hp : p < a.image_size) :
    (let after := hip_kernel_wavg REFCTF REF3D DATA3D block_sz pass_num dev buffer a out
     let trans := fun t => transAt DATA3D dev a p t
     let w := fun g t => a.g_weights (g * a.translation_num + t) / a.weight_norm
     let included := fun g => (Finset.range a.translation_num).filter
       (fun t => a.g_weights (g * a.translation_num + t) ≥ a.significant_weight)
     after.g_wdiff2s_parts p - out.g_wdiff2s_parts p =
       (after.g_wdiff2s_AA p - out.g_wdiff2s_AA p)
         - 2 * (after.g_wdiff2s_XA p - out.g_wdiff2s_XA p)
         + ∑ g in Finset.range a.orientation_num, ∑ t in included g,
             w g t * ((trans t).1 ^ 2 + (trans t).2 ^ 2)) := by
  intro after trans w included
  obtain ⟨h1, h2, h3⟩ :=
    read_kernel_components REFCTF REF3D DATA3D block_sz pass_num dev buffer a out hb hpass p hp
  have e1 : after.g_wdiff2s_parts p = out.g_wdiff2s_parts p + _ := h1
  have e2 : after.g_wdiff2s_XA p = out.g_wdiff2s_XA p + _ := h2
  have e3 : after.g_wdiff2s_AA p = out.g_wdiff2s_AA p + _ := h3
  rw [e1, e2, e3, add_sub_cancel_left, add_sub_cancel_left, add_sub_cancel_left,
    Finset.mul_sum, ← Finset.sum_sub_distrib, ← Finset.sum_add_distrib]
  apply Finset.sum_congr rfl
  intro g _
  rw [Finset.mul_sum, ← Finset.sum_sub_distrib]
  show _ = _ + ∑ t in significant a g, _
  rw [← Finset.sum_add_distrib]
  apply Finset.sum_congr rfl
  intro t _
  simp only [w, trans, weightAt]
  ring

/-- C17, instantiated: pixel 5 of the demonstration input from zeroed arrays, where the
three amounts are `72/5`, `45` and `27` and the translated power sum is `117/5`. -/
theorem hip_kernel_wavg_residual_expansion_witness :
    (0 < 16 ∧ demoArgs.image_size ≤ 4 * 16 ∧ 5 < demoArgs.image_size) ∧
    (hip_kernel_wavg false false false 16 4 demoDevice zeroBuffer demoArgs
          zeroOut).g_wdiff2s_parts 5 - zeroOut.g_wdiff2s_parts 5 =
      ((hip_kernel_wavg false false false 16 4 demoDevice zeroBuffer demoArgs
          zeroOut).g_wdiff2s_AA 5 - zeroOut.g_wdiff2s_AA 5)
        - 2 * ((hip_kernel_wavg false false false 16 4 demoDevice zeroBuffer demoArgs
          zeroOut).g_wdiff2s_XA 5 - zeroOut.g_wdiff2s_XA 5)
        + 117 / 5 := by
  have h := hip_kernel_wavg_residual_expansion false false false 16 4 demoDevice zeroBuffer
    demoArgs zeroOut (by decide) (by decide) 5 (by decide)
  refine ⟨⟨by decide, by decide, by decide⟩, ?_⟩
  have hsum : (∑ g in Finset.range demoArgs.orientation_num,
      ∑ t in (Finset.range demoArgs.translation_num).filter
        (fun t => demoArgs.g_weights (g * demoArgs.translation_num + t)
          ≥ demoArgs.significant_weight),
        demoArgs.g_weights (g * demoArgs.translation_num + t) / demoArgs.weight_norm *
          ((transAt false demoDevice demoArgs 5 t).1 ^ 2
            + (transAt false demoDevice demoArgs 5 t).2 ^ 2)) = 117 / 5 := by
    simp [transAt, coordAt, resolvePixel, transValue, floorfracf, demoArgs, demoProjector,
      demoDevice, Finset.sum_filter, Finset.sum_range_succ]
    norm_num
  rw [← hsum]
  exact h

/-- The squared-difference and auto-power totals a thread merges are not negative when
the weights are not negative and `weight_norm` is positive. -/
theorem pixelTotals_nonneg (REFCTF REF3D DATA3D : Bool) (block_sz : Nat) (dev : DeviceUtils)
    (buffer : Nat → Nat → XFLOAT) (a : WavgArgs) (g p : Nat) (hnorm : 0 < a.weight_norm)
    (hw : ∀ t, t < a.translation_num → 0 ≤ a.g_weights (g * a.translation_num + t)) :
    0 ≤ (pixelTotals REFCTF REF3D DATA3D dev a
          (s_eulers block_sz (buffer g) a.g_eulers g) g p).1 ∧
    0 ≤ (pixelTotals REFCTF REF3D DATA3D dev a
          (s_eulers block_sz (buffer g) a.g_eulers g) g p).2.2 := by
  rw [pixelTotals_eq]
  have hwt : ∀ t, t ∈ significant a g → 0 ≤ weightAt a g t / a.weight_norm := by
    intro t ht
    exact div_nonneg (hw t (Finset.mem_range.mp (Finset.mem_filter.mp ht).1)) hnorm.le
  constructor
  · rw [Prod.fst_sum]
    apply Finset.sum_nonneg
    intro t ht
    exact mul_nonneg (hwt t ht) (add_nonneg (mul_self_nonneg _) (mul_self_nonneg _))
  · rw [Prod.snd_sum, Prod.snd_sum]
    apply Finset.sum_nonneg
    intro t ht
    exact mul_nonneg (hwt t ht) (add_nonneg (mul_self_nonneg _) (mul_self_nonneg _))

/-- C18. The squared-difference and auto-power accumulators never decrease: for every
input with `weight_norm > 0` and every weight of the weight table not negative, and for
every index `p`, the values of `g_wdiff2s_parts[p]` and `g_wdiff2s_AA[p]` after the
invocation are at least their values before it; entries that were zero end not
negative. -/
theorem hip_kernel_wavg_monotone (REFCTF REF3D DATA3D : Bool) (block_sz pass_num : Nat)
    (dev : DeviceUtils) (buffer : Nat → Nat → XFLOAT) (a : WavgArgs) (out : WavgOut)
    (hnorm : 0 < a.weight_norm)
    (hw : ∀ g, g < a.orientation_num → ∀ t, t < a.translation_num →
      0 ≤ a.g_weights (g * a.translation_num + t))
    (p : Nat) :
    (out.g_wdiff2s_parts p ≤
      (hip_kernel_wavg REFCTF REF3D DATA3D block_sz pass_num dev buffer a out).g_wdiff2s_parts
        p ∧
     out.g_wdiff2s_AA p ≤
      (hip_kernel_wavg REFCTF REF3D DATA3D block_sz pass_num dev buffer a out).g_wdiff2s_AA
        p) ∧
    (out.g_wdiff2s_parts p = 0 →
      0 ≤ (hip_kernel_wavg REFCTF REF3D DATA3D block_sz pass_num dev buffer a
        out).g_wdiff2s_parts p) ∧
    (out.g_wdiff2s_AA p = 0 →
      0 ≤ (hip_kernel_wavg REFCTF REF3D DATA3D block_sz pass_num dev buffer a
        out).g_wdiff2s_AA p) := by
  have hread := read_kernel REFCTF REF3D DATA3D block_sz pass_num dev buffer a out p
  have h1 := congrArg Prod.fst hread
  have h3 := congrArg (fun s : Totals => s.2.2) hread
  simp only [WavgOut.read, Prod.fst_add, Prod.snd_add, Prod.fst_sum, Prod.snd_sum] at h1 h3
  have n1 : 0 ≤ ∑ g in Finset.range a.orientation_num,
      (if p < a.image_size ∧ p % block_sz < block_sz ∧ p / block_sz < pass_num then
        pixelTotals REFCTF REF3D DATA3D dev a (s_eulers block_sz (buffer g) a.g_eulers g) g p
      else 0).1 := by
    apply Finset.sum_nonneg
    intro g hg
    split_ifs
    · exact (pixelTotals_nonneg REFCTF REF3D DATA3D block_sz dev buffer a g p hnorm
        (hw g (Finset.mem_range.mp hg))).1
    · exact le_refl _
  have n3 : 0 ≤ ∑ g in Finset.range a.orientation_num,
      (if p < a.image_size ∧ p % block_sz < block_sz ∧ p / block_sz < pass_num then
        pixelTotals REFCTF REF3D DATA3D dev a (s_eulers block_sz (buffer g) a.g_eulers g) g p
      else 0).2.2 := by
    apply Finset.sum_nonneg
    intro g hg
    split_ifs
    · exact (pixelTotals_nonneg REFCTF REF3D DATA3D block_sz dev buffer a g p hnorm
        (hw g (Finset.mem_range.mp hg))).2
    · exact le_refl _
  have m1 : out.g_wdiff2s_parts p ≤
      (hip_kernel_wavg REFCTF REF3D DATA3D block_sz pass_num dev buffer a out).g_wdiff2s_parts
        p := by
    rw [h1]; exact le_add_of_nonneg_right n1
  have m3 : out.g_wdiff2s_AA p ≤
      (hip_kernel_wavg REFCTF REF3D DATA3D block_sz pass_num dev buffer a out).g_wdiff2s_AA
        p := by
    rw [h3]; exact le_add_of_nonneg_right n3
  exact ⟨⟨m1, m3⟩, fun z => z ▸ m1, fun z => z ▸ m3⟩

/-- C18, instantiated: the demonstration input (weights `9/10`, `1/20`, `weight_norm = 1`)
at pixel 5, from zeroed arrays. -/
theorem hip_kernel_wavg_monotone_witness :
    (0 < demoArgs.weight_norm ∧
      ∀ g, g < demoArgs.orientation_num → ∀ t, t < demoArgs.translation_num →
        0 ≤ demoArgs.g_weights (g * demoArgs.translation_num + t)) ∧
    0 ≤ (hip_kernel_wavg false false false 16 4 demoDevice zeroBuffer demoArgs
        zeroOut).g_wdiff2s_parts 5 ∧
    0 ≤ (hip_kernel_wavg false false false 16 4 demoDevice zeroBuffer demoArgs
        zeroOut).g_wdiff2s_AA 5 := by
  have hnorm : 0 < demoArgs.weight_norm := by simp [demoArgs]
  have hw : ∀ g, g < demoArgs.orientation_num → ∀ t, t < demoArgs.translation_num →
      0 ≤ demoArgs.g_weights (g * demoArgs.translation_num + t) := by
    intro g _ t _
    simp only [demoArgs]
    split_ifs <;> norm_num
  obtain ⟨_, h1, h2⟩ := hip_kernel_wavg_monotone false false false 16 4 demoDevice zeroBuffer
    demoArgs zeroOut hnorm hw 5
  exact ⟨⟨hnorm, hw⟩, h1 rfl, h2 rfl⟩

/-! ## The three variants -/

/-- C15. Variant dispatch, volumetric data first.  With `DATA3D` the reference is
projected from `(x, y, z)` with all nine rotation scalars, whatever `REF3D` is; with
`DATA3D` false and `REF3D` true it is projected from `(x, y)` with the rotation scalars
0, 1, 3, 4, 6, 7; with both false it is projected from `(x, y)` with the rotation scalars
0, 1, 3, 4.  Consequently, in the planar-reference variant a run whose rotation scalars
agree with those of `a` at the positions 0, 1, 3, 4 of every group, and whose `g_trans_z`
is arbitrary, gives the same outputs as the run on `a`. -/
theorem hip_kernel_wavg_dispatch (REFCTF : Bool) (block_sz pass_num : Nat)
    (dev : DeviceUtils) (buffer : Nat → Nat → XFLOAT) (a : WavgArgs) (out : WavgOut)
    (eulers' trans_z' : Nat → XFLOAT)
    (he : ∀ g k, k = 0 ∨ k = 1 ∨ k = 3 ∨ k = 4 →
      eulers' (g * 9 + k) = a.g_eulers (g * 9 + k)) :
    (∀ (REF3D : Bool) (e : Nat → XFLOAT) (x y z : Int),
      projValue REF3D true a e x y z =
        a.projector.project3Dmodel x y z (e 0) (e 1) (e 2) (e 3) (e 4) (e 5) (e 6) (e 7)
          (e 8)) ∧
    (∀ (e : Nat → XFLOAT) (x y z : Int),
      projValue true false a e x y z =
        a.projector.project3Dmodel_xy x y (e 0) (e 1) (e 3) (e 4) (e 6) (e 7)) ∧
    (∀ (e : Nat → XFLOAT) (x y z : Int),
      projValue false false a e x y z =
        a.projector.project2Dmodel x y (e 0) (e 1) (e 3) (e 4)) ∧
    hip_kernel_wavg REFCTF false false block_sz pass_num dev buffer
        { a with g_eulers := eulers', g_trans_z := trans_z' } out =
      hip_kernel_wavg REFCTF false false block_sz pass_num dev buffer a out := by
  refine ⟨fun REF3D e x y z => ?_, fun e x y z => ?_, fun e x y z => ?_, ?_⟩
  · simp only [projValue, if_true]
  · simp only [projValue, Bool.false_eq_true, if_false, if_true]
  · simp only [projValue, Bool.false_eq_true, if_false]
  · refine hip_kernel_wavg_congr REFCTF false false REFCTF false false block_sz pass_num dev
      dev buffer buffer { a with g_eulers := eulers', g_trans_z := trans_z' } a out rfl rfl ?_
    intro g _ p _
    have hstep : transStep false dev { a with g_eulers := eulers', g_trans_z := trans_z' }
        = transStep false dev a := by
      funext bid x y z rr ri ir ii s t
      simp only [transStep, transValue, Bool.false_eq_true, if_false]
    have hs : ∀ k, k = 0 ∨ k = 1 ∨ k = 3 ∨ k = 4 →
        s_eulers block_sz (buffer g) eulers' g k
          = s_eulers block_sz (buffer g) a.g_eulers g k := by
      intro k hk
      simp only [s_eulers, he g k hk]
    have hproj : ∀ x y z,
        projValue false false { a with g_eulers := eulers', g_trans_z := trans_z' }
            (s_eulers block_sz (buffer g) eulers' g) x y z =
          projValue false false a (s_eulers block_sz (buffer g) a.g_eulers g) x y z := by
      intro x y z
      simp only [projValue, Bool.false_eq_true, if_false, hs 0 (Or.inl rfl),
        hs 1 (Or.inr (Or.inl rfl)), hs 3 (Or.inr (Or.inr (Or.inl rfl))),
        hs 4 (Or.inr (Or.inr (Or.inr rfl)))]
    simp only [pixelTotals, refValue, transLoop, hstep, hproj]

/-- C15, instantiated: the demonstration input against the input whose rotation scalars
2, 5, 6, 7, 8 of every group are `7` instead of `1` and whose `g_trans_z` is `3` instead
of `0`. -/
theorem hip_kernel_wavg_dispatch_witness :
    (∀ g k, k = 0 ∨ k = 1 ∨ k = 3 ∨ k = 4 →
      (fun i : Nat => if i % 9 = 0 ∨ i % 9 = 1 ∨ i % 9 = 3 ∨ i % 9 = 4 then (1 : XFLOAT) else 7)
          (g * 9 + k) = demoArgs.g_eulers (g * 9 + k)) ∧
    hip_kernel_wavg false false false 16 4 demoDevice zeroBuffer
        { demoArgs with
          g_eulers := fun i =>
            if i % 9 = 0 ∨ i % 9 = 1 ∨ i % 9 = 3 ∨ i % 9 = 4 then (1 : XFLOAT) else 7
          g_trans_z := fun _ => 3 } zeroOut =
      hip_kernel_wavg false false false 16 4 demoDevice zeroBuffer demoArgs zeroOut := by
  have he : ∀ g k, k = 0 ∨ k = 1 ∨ k = 3 ∨ k = 4 →
      (fun i : Nat => if i % 9 = 0 ∨ i % 9 = 1 ∨ i % 9 = 3 ∨ i % 9 = 4 then (1 : XFLOAT) else 7)
          (g * 9 + k) = demoArgs.g_eulers (g * 9 + k) := by
    intro g k hk
    have hmod : (g * 9 + k) % 9 = k := by omega
    simp only [hmod, hk, if_true, demoArgs]
  exact ⟨he, (hip_kernel_wavg_dispatch false 16 4 demoDevice zeroBuffer demoArgs zeroOut _
    (fun _ => 3) he).2.2.2⟩

/-! ## The two resolvers compared, and the range of the resolved coordinates -/

end Wavg

namespace AlignTiltseriesRunner

/-! ## The selection of the tomograms to process -/

theorem selectStep_idx_tomograms (continue_old : Bool) (do_at_most : Int)
    (checkResults : Nat → Bool) (st : Selection) (itomo : Nat) :
    (selectStep continue_old do_at_most checkResults st itomo).idx_tomograms =
      if (!(continue_old && checkResults itomo)) = true ∧
          ¬ (0 ≤ do_at_most ∧ do_at_most ≤ (st.idx_tomograms.length : Int)) then
        st.idx_tomograms ++ [itomo]
      else st.idx_tomograms := by
  unfold selectStep
  by_cases h1 : (continue_old && checkResults itomo) = true
  · simp [h1]
  · by_cases h2 : 0 ≤ do_at_most ∧ do_at_most ≤ (st.idx_tomograms.length : Int)
    · simp [h1, h2]
    · have h3 : (decide (do_at_most ≥ 0)
          && decide ((st.idx_tomograms.length : Int) ≥ do_at_most)) = false := by
        simpa using h2
      simp [h1, h2, h3]

theorem foldl_selectStep_idx_tomograms (continue_old : Bool) (do_at_most : Int)
    (checkResults : Nat → Bool) (n : Nat) :
    ((List.range n).foldl (selectStep continue_old do_at_most checkResults)
        { idx_tomograms := [], idx_tomograms_all := [], warned := false }).idx_tomograms =
      if 0 ≤ do_at_most then
        ((List.range n).filter
          (fun itomo => !(continue_old && checkResults itomo))).take do_at_most.toNat
      else (List.range n).filter (fun itomo => !(continue_old && checkResults itomo)) := by
  induction n with
  | zero => simp
  | succ n ih =>
    rw [List.range_succ, List.foldl_append, List.foldl_cons, List.foldl_nil,
      selectStep_idx_tomograms, ih, List.filter_append]
    generalize (List.range n).filter (fun itomo => !(continue_old && checkResults itomo)) = l
    by_cases hneed : (!(continue_old && checkResults n)) = true
    · have hf : List.filter (fun itomo => !(continue_old && checkResults itomo)) [n] = [n] := by
        simp only [List.filter_cons, hneed, if_true, List.filter_nil]
      rw [hf]
      by_cases hk : 0 ≤ do_at_most
      · obtain ⟨k, rfl⟩ : ∃ k : Nat, do_at_most = (k : Int) :=
          ⟨do_at_most.toNat, (Int.toNat_of_nonneg hk).symm⟩
        simp only [hk, if_true, Int.toNat_ofNat, hneed, true_and, List.length_take]
        by_cases hlen : k ≤ l.length
        · have h1 : (k : Int) ≤ ((min k l.length : Nat) : Int) := by
            rw [Nat.min_eq_left hlen]
          simp only [h1, not_true, if_false]
          rw [List.take_append_of_le_length hlen]
        · have hlt : l.length < k := Nat.lt_of_not_le hlen
          have h1 : ¬ ((k : Int) ≤ ((min k l.length : Nat) : Int)) := by
            rw [Nat.min_eq_right hlt.le]; omega
          simp only [h1, not_false_eq_true, if_true]
          rw [List.take_of_length_le hlt.le, List.take_of_length_le]
          rw [List.length_append, List.length_singleton]
          omega
      · simp only [hk, if_false, hneed, false_and, not_false_eq_true, and_self, if_true]
    · have hf : List.filter (fun itomo => !(continue_old && checkResults itomo)) [n] = [] := by
        simp only [List.filter_cons, hneed, List.filter_nil]
        rfl
      rw [hf, List.append_nil]
      simp only [hneed, Bool.false_eq_true, false_and, if_false]

/-- C13. Tomogram selection: with `checkResults` an arbitrary predicate on tomogram
indices, the list `idx_tomograms` the loop builds is the list of the tomograms that need
processing (all tomograms, or with `--only_do_unfinished` those for which `checkResults`
is false), in input order, cut to its first `do_at_most` entries when `do_at_most >= 0`
and not cut when `do_at_most < 0`; when `do_at_most >= 0` it has at most `do_at_most`
entries. -/
theorem initialise_idx_tomograms (continue_old : Bool) (do_at_most : Int)
    (checkResults : Nat → Bool) (size : Nat) :
    (let needed := (List.range size).filter (fun itomo => !(continue_old && checkResults itomo))
     let idx := (initialise continue_old do_at_most checkResults size).idx_tomograms
     (0 ≤ do_at_most →
       idx = needed.take do_at_most.toNat ∧ (idx.length : Int) ≤ do_at_most) ∧
     (do_at_most < 0 → idx = needed)) := by
  intro needed idx
  have h : idx = if 0 ≤ do_at_most then needed.take do_at_most.toNat else needed :=
    foldl_selectStep_idx_tomograms continue_old do_at_most checkResults size
  constructor
  · intro hk
    rw [if_pos hk] at h
    refine ⟨h, ?_⟩
    rw [h, List.length_take]
    have := Int.toNat_of_nonneg hk
    omega
  · intro hk
    rw [if_neg (not_le.mpr hk)] at h
    exact h

/-- C13, instantiated: five tomograms of which the tomograms 1 and 3 have results.  With
`--only_do_unfinished` and `--do_at_most 2` the list is `[0, 2]`; with `--do_at_most -1`
it is `[0, 2, 4]`; without `--only_do_unfinished` and with `--do_at_most 2` it is
`[0, 1]`. -/
theorem initialise_idx_tomograms_witness :
    ((0 : Int) ≤ 2 ∧ (-1 : Int) < 0) ∧
    (initialise true 2 (fun i => i == 1 || i == 3) 5).idx_tomograms = [0, 2] ∧
    (initialise true (-1) (fun i => i == 1 || i == 3) 5).idx_tomograms = [0, 2, 4] ∧
    (initialise false 2 (fun i => i == 1 || i == 3) 5).idx_tomograms = [0, 1] :=
  ⟨⟨by decide, by decide⟩,
    ((initialise_idx_tomograms true 2 (fun i => i == 1 || i == 3) 5).1 (by decide)).1.trans
      (by decide),
    ((initialise_idx_tomograms true (-1) (fun i => i == 1 || i == 3) 5).2 (by decide)).trans
      (by decide),
    ((initialise_idx_tomograms false 2 (fun i => i == 1 || i == 3) 5).1 (by decide)).1.trans
      (by decide)⟩

end AlignTiltseriesRunner
